import Mathlib

/-!
# SSD1306 display driver: command framing and payload construction

A shallow embedding of `ssd1306.cpp`.  Bytes are natural numbers, the two-wire
bus is a log of the `write` calls the driver made, and the value each `write`
call returns is given by a script indexed by the position of the call.
Array reads go through `Option`-returning indexing: a read outside its array
makes the operation `none`.
-/

namespace Ssd1306

/-! ## Data model -/

/-- One call `write(mFd, buffer, count)`: the array the driver passed and the
number of bytes it asked the bus to transfer from it. -/
structure BusWrite where
  buf : List Nat
  len : Nat
  deriving DecidableEq, Repr

/-- The bytes a bus write transfers: the first `len` bytes of the array when the
array holds that many, and nothing well defined when `len` runs past its end. -/
def BusWrite.delivered (w : BusWrite) : Option (List Nat) :=
  if w.len ≤ w.buf.length then some (w.buf.take w.len) else none

/-- The value returned by each call of `write`, by position of the call on the
bus (the first call has position 0): a byte count, or a negative error. -/
abbrev Transport := Nat → Int

/-- The driver object: the members inherited from the bus connection, with the
file descriptor represented by the log of writes made through it. -/
structure SSD1306 where
  mAddress : Nat
  mDebug : Bool
  bus : List BusWrite
  deriving DecidableEq, Repr

/-- Command opcodes declared in `ssd1306.h`, which is not part of the sources;
they are taken as parameters. -/
structure Commands where
  ssd1306ColumnAddress : Nat
  ssd1306PageAddress : Nat
  Ssd1306DeactivateScroll : Nat
  Ssd1306ActivateScroll : Nat
  deriving DecidableEq, Repr

/-- Modelled from the spec: the constant `Ssd1306LcdWitdh` of `ssd1306.h` (not in
the sources), "WIDTH = 128 columns". -/
def Ssd1306LcdWitdh : Nat := 128

/-- Modelled from the spec: the constant `SSD1306LcdPages` of `ssd1306.h` (not in
the sources), "PAGES = 8". -/
def SSD1306LcdPages : Nat := 8

/-- The call `memset(buffer, 0, n)` on a fresh array of `n` bytes. -/
def memset0 (n : Nat) : List Nat := List.replicate n 0

/-- The call `write(mFd, buffer, count)`: the call is logged and the transport
decides the returned value. -/
def write (T : Transport) (s : SSD1306) (buffer : List Nat) (count : Nat) : Int × SSD1306 :=
  (T s.bus.length, { s with bus := s.bus ++ [⟨buffer, count⟩] })

/-! ## Operations -/

/-- Modelled from the spec: the constant `SSD1306Addresses::SSD1306Address0` of
`ssd1306.h` (not in the sources), the first of the two legal peripheral addresses,
"0x78"; the message printed by `setAddress` gives it as `0b01111000`. -/
def SSD1306Address0 : Nat := 0b01111000

/-- Modelled from the spec: the constant `SSD1306Addresses::SSD1306Address1` of
`ssd1306.h` (not in the sources), the second legal peripheral address, "0x7A";
the message printed by `setAddress` gives it as `0b01111010`. -/
def SSD1306Address1 : Nat := 0b01111010

/-- `SSD1306::setAddress` (lines 29-43). -/
def setAddress (address : Nat) (s : SSD1306) : Int × SSD1306 :=
  if address ≠ SSD1306Address0 ∧ address ≠ SSD1306Address1 then (-1, s)
  else (0, { s with mAddress := address })

/-- `SSD1306::runCommand` (lines 94-111). -/
def runCommand (T : Transport) (command : Nat) (s : SSD1306) : Int × SSD1306 :=
  let buffer := [0b00000000, command]
  let r := write T s buffer 2
  if r.1 ≠ 2 then (-1, r.2) else (0, r.2)

/-- `SSD1306::setScroll` (lines 57-84). -/
def setScroll (C : Commands) (T : Transport)
    (scroll startPage endPage timeInterval offset : Nat) (s : SSD1306) : Int × SSD1306 :=
  let buffer := [scroll, 0x00, startPage, timeInterval, endPage, offset]
  let r1 := runCommand T C.Ssd1306DeactivateScroll s
  if r1.1 < 0 then (-1, r1.2) else
  let r2 := write T r1.2 buffer 6
  if r2.1 ≠ 6 then (-2, r2.2) else
  let r3 := runCommand T C.Ssd1306ActivateScroll r2.2
  if r3.1 < 0 then (-3, r3.2) else
  (0, r3.2)

/-- The copy loop of `writeImage` (lines 165-166):
`for (int i = 1; i < Ssd1306LcdWitdh * SSD1306LcdPages; i++) buffer[i] = data[i-1];`
started at the given `i`. -/
def writeImageLoop (data : List Nat) (i : Nat) (buffer : List Nat) : Option (List Nat) :=
  if i < Ssd1306LcdWitdh * SSD1306LcdPages then
    match data[i - 1]? with
    | none => none
    | some b =>
      if i < buffer.length then writeImageLoop data (i + 1) (buffer.set i b) else none
  else some buffer
termination_by Ssd1306LcdWitdh * SSD1306LcdPages - i

/-- `SSD1306::writeImage` (lines 123-175). -/
def writeImage (C : Commands) (T : Transport) (data : List Nat) (s : SSD1306) :
    Option (Int × SSD1306) :=
  let r1 := runCommand T C.ssd1306ColumnAddress s
  if r1.1 < 0 then some (-1, r1.2) else
  let r2 := runCommand T 0 r1.2
  if r2.1 < 0 then some (-2, r2.2) else
  let r3 := runCommand T (Ssd1306LcdWitdh - 1) r2.2
  if r3.1 < 0 then some (-3, r3.2) else
  let r4 := runCommand T C.ssd1306PageAddress r3.2
  if r4.1 < 0 then some (-4, r4.2) else
  let r5 := runCommand T 0 r4.2
  if r5.1 < 0 then some (-5, r5.2) else
  let r6 := runCommand T (SSD1306LcdPages - 1) r5.2
  if r6.1 < 0 then some (-6, r6.2) else
  let buffer := memset0 (Ssd1306LcdWitdh * SSD1306LcdPages + 1)
  let buffer := buffer.set 0 0x40
  match writeImageLoop data 1 buffer with
  | none => none
  | some buffer =>
    let r7 := write T r6.2 buffer (Ssd1306LcdWitdh * SSD1306LcdPages + 1)
    if r7.1 < 0 then some (-7, r7.2) else
    some (0, r7.2)

/-- The glyph packing loop of `writeLine` (lines 228-239):
`for (int i = 1; i < 127; i++) { if (f == 5) { offset++; f = 0; }
 if (i < 125) buffer[i] = font[data[offset] * 5 + f++]; }`
started at the given `i`, `offset` and `f`. -/
def writeLineLoop (font data : List Nat) (i offset f : Nat) (buffer : List Nat) :
    Option (List Nat) :=
  if i < 127 then
    let offset1 := if f = 5 then offset + 1 else offset
    let f1 := if f = 5 then 0 else f
    if i < 125 then
      match data[offset1]? with
      | none => none
      | some c =>
        match font[c * 5 + f1]? with
        | none => none
        | some g =>
          if i < buffer.length then
            writeLineLoop font data (i + 1) offset1 (f1 + 1) (buffer.set i g)
          else none
    else writeLineLoop font data (i + 1) offset1 f1 buffer
  else some buffer
termination_by 127 - i

/-- The lookups of the glyph packing loop of `writeLine`, in the order the loop
makes them: the same loop as `writeLineLoop`, recording for every pass that stores
a byte the index read in the text, the column `f` added to five times the
character read, and the index stored in the payload.  A pass whose lookup falls
outside its array is recorded and ends the log. -/
def writeLineLookups (font data : List Nat) (i offset f : Nat) (buffer : List Nat) :
    List (Nat × Nat × Nat) :=
  if i < 127 then
    let offset1 := if f = 5 then offset + 1 else offset
    let f1 := if f = 5 then 0 else f
    if i < 125 then
      match data[offset1]? with
      | none => [(offset1, f1, i)]
      | some c =>
        match font[c * 5 + f1]? with
        | none => [(offset1, f1, i)]
        | some g =>
          if i < buffer.length then
            (offset1, f1, i) ::
              writeLineLookups font data (i + 1) offset1 (f1 + 1) (buffer.set i g)
          else [(offset1, f1, i)]
    else writeLineLookups font data (i + 1) offset1 f1 buffer
  else []
termination_by 127 - i

/-- The legal peripheral addresses. -/
def LegalAddress (a : Nat) : Prop := a = SSD1306Address0 ∨ a = SSD1306Address1

/-- `SSD1306::writeLine` (lines 188-247); `font` is the glyph table of `ssd1306.h`,
which is not part of the sources and is taken as a parameter. -/
def writeLine (C : Commands) (font : List Nat) (T : Transport) (page : Nat) (data : List Nat)
    (s : SSD1306) : Option (Int × SSD1306) :=
  let r1 := runCommand T C.ssd1306ColumnAddress s
  if r1.1 < 0 then some (-1, r1.2) else
  let r2 := runCommand T 0 r1.2
  if r2.1 < 0 then some (-2, r2.2) else
  let r3 := runCommand T (Ssd1306LcdWitdh - 1) r2.2
  if r3.1 < 0 then some (-3, r3.2) else
  let r4 := runCommand T C.ssd1306PageAddress r3.2
  if r4.1 < 0 then some (-4, r4.2) else
  let r5 := runCommand T page r4.2
  if r5.1 < 0 then some (-5, r5.2) else
  let r6 := runCommand T page r5.2
  if r6.1 < 0 then some (-6, r6.2) else
  let buffer := memset0 (Ssd1306LcdWitdh + 1)
  let buffer := buffer.set 0 0x40
  match writeLineLoop font data 1 0 0 buffer with
  | none => none
  | some buffer =>
    let r7 := write T r6.2 buffer (Ssd1306LcdWitdh + 1)
    if r7.1 < 0 then some (-7, r7.2) else
    some (0, r7.2)

/-- `SSD1306::writeByte` (lines 261-303). -/
def writeByte (C : Commands) (T : Transport) (line position data : Nat) (s : SSD1306) :
    Int × SSD1306 :=
  let r1 := runCommand T C.ssd1306ColumnAddress s
  if r1.1 < 0 then (-1, r1.2) else
  let r2 := runCommand T position r1.2
  if r2.1 < 0 then (-2, r2.2) else
  let r3 := runCommand T position r2.2
  if r3.1 < 0 then (-3, r3.2) else
  let r4 := runCommand T C.ssd1306PageAddress r3.2
  if r4.1 < 0 then (-4, r4.2) else
  let r5 := runCommand T line r4.2
  if r5.1 < 0 then (-5, r5.2) else
  let r6 := runCommand T line r5.2
  if r6.1 < 0 then (-6, r6.2) else
  let buffer := [0x40, data]
  let r7 := write T r6.2 buffer 2
  if r7.1 < 0 then (-7, r7.2) else
  (0, r7.2)

/-- The conversion of an `int` argument to the `unsigned char` parameter of
`runCommand`. -/
def toUChar (x : Int) : Nat := (x % 256).toNat

/-- `SSD1306::clearLine` (lines 315-360). -/
def clearLine (C : Commands) (T : Transport) (line : Int) (s : SSD1306) : Int × SSD1306 :=
  let r1 := runCommand T C.ssd1306ColumnAddress s
  if r1.1 < 0 then (-1, r1.2) else
  let r2 := runCommand T 0 r1.2
  if r2.1 < 0 then (-2, r2.2) else
  let r3 := runCommand T (Ssd1306LcdWitdh - 1) r2.2
  if r3.1 < 0 then (-3, r3.2) else
  let r4 := runCommand T C.ssd1306PageAddress r3.2
  if r4.1 < 0 then (-4, r4.2) else
  let r5 := runCommand T (toUChar line) r4.2
  if r5.1 < 0 then (-5, r5.2) else
  let r6 := runCommand T (toUChar line) r5.2
  if r6.1 < 0 then (-6, r6.2) else
  let data := memset0 128
  let data := data.set 0 0x40
  let r7 := write T r6.2 data 129
  if r7.1 < 0 then (-7, r7.2) else
  (0, r7.2)

/-- `SSD1306::clearDisplay` (lines 370-415). -/
def clearDisplay (C : Commands) (T : Transport) (s : SSD1306) : Int × SSD1306 :=
  let r1 := runCommand T C.ssd1306ColumnAddress s
  if r1.1 < 0 then (-1, r1.2) else
  let r2 := runCommand T 0 r1.2
  if r2.1 < 0 then (-2, r2.2) else
  let r3 := runCommand T (Ssd1306LcdWitdh - 1) r2.2
  if r3.1 < 0 then (-3, r3.2) else
  let r4 := runCommand T C.ssd1306PageAddress r3.2
  if r4.1 < 0 then (-4, r4.2) else
  let r5 := runCommand T 0 r4.2
  if r5.1 < 0 then (-5, r5.2) else
  let r6 := runCommand T (SSD1306LcdPages - 1) r5.2
  if r6.1 < 0 then (-6, r6.2) else
  let data := memset0 1025
  let data := data.set 0 0x40
  let r7 := write T r6.2 data 1025
  if r7.1 < 0 then (-7, r7.2) else
  (0, r7.2)

/-! ## Vocabulary for the statements -/

/-- The command frame of opcode `c`: the array `{0x00, c}` written with count 2. -/
def frame (c : Nat) : BusWrite := ⟨[0x00, c], 2⟩

/-- The six command frames that select the rectangle
`colStart..colEnd` by `pageStart..pageEnd`. -/
def window (C : Commands) (colStart colEnd pageStart pageEnd : Nat) : List BusWrite :=
  [frame C.ssd1306ColumnAddress, frame colStart, frame colEnd,
   frame C.ssd1306PageAddress, frame pageStart, frame pageEnd]

/-- An array of `n` bytes that is zero except for the data marker `0x40` in front. -/
def blankPayload (n : Nat) : List Nat := 0x40 :: List.replicate (n - 1) 0

/-- Transport that reports every write of a data operation as complete: 2 for each
of the six command frames and `n` for the payload. -/
def fullTransport (n : Int) : Transport := fun k => if k < 6 then 2 else n

/-- Transport that completes the first `k` writes as two-byte frames and reports
`r` for every later one. -/
def failAt (k : Nat) (r : Int) : Transport := fun i => if i < k then 2 else r

/-- A driver that has not written anything yet. -/
def fresh : SSD1306 := ⟨0b01111000, false, []⟩

/-- Sample opcode values for concrete runs. -/
def sampleCommands : Commands := ⟨0x21, 0x22, 0x2E, 0x2F⟩

/-- Reference routine for a run of command frames: the opcodes are sent in order
with `runCommand`, stopping at the first one that fails.  The result is 0 when all
were accepted and otherwise `k` plus the 1-based position of the failed frame. -/
def sendFrames (T : Transport) : List Nat → Nat → SSD1306 → Nat × SSD1306
  | [], _, s => (0, s)
  | c :: cs, k, s =>
    if (runCommand T c s).1 < 0 then (k + 1, (runCommand T c s).2)
    else sendFrames T cs (k + 1) (runCommand T c s).2

/-- The public operations of the driver that write to the bus, with their arguments. -/
inductive Op where
  | runCommand (command : Nat)
  | setScroll (scroll startPage endPage timeInterval offset : Nat)
  | writeImage (data : List Nat)
  | writeLine (page : Nat) (data : List Nat)
  | writeByte (line position data : Nat)
  | clearLine (line : Int)
  | clearDisplay
  deriving DecidableEq, Repr

/-- The data-bearing operations: those that end with a `0x40` payload write. -/
def Op.hasPayload : Op → Bool
  | .runCommand _ => false
  | .setScroll _ _ _ _ _ => false
  | _ => true

/-- Calling an operation on the driver. -/
def exec (C : Commands) (font : List Nat) (T : Transport) : Op → SSD1306 → Option (Int × SSD1306)
  | .runCommand c, s => some (runCommand T c s)
  | .setScroll a b c d e, s => some (setScroll C T a b c d e s)
  | .writeImage data, s => writeImage C T data s
  | .writeLine page data, s => writeLine C font T page data s
  | .writeByte l p d, s => some (writeByte C T l p d s)
  | .clearLine l, s => some (clearLine C T l s)
  | .clearDisplay, s => some (clearDisplay C T s)

/-- Reference shape of a data-bearing operation: the opcodes `cs` are sent as
command frames, the first refused one aborting with minus its position (counted
from `k + 1`); then the array `payload` is written with the requested `count`,
a negative result of that write giving -7.  A `payload` of `none` stands for an
array whose construction read outside its source. -/
def dataOpFrom (T : Transport) (payload : Option (List Nat)) (count : Nat) :
    List Nat → Nat → SSD1306 → Option (Int × SSD1306)
  | [], _, s =>
    match payload with
    | none => none
    | some buffer =>
      if (write T s buffer count).1 < 0 then some (-7, (write T s buffer count).2)
      else some (0, (write T s buffer count).2)
  | c :: cs, k, s =>
    if (runCommand T c s).1 < 0 then some (-((k + 1 : Nat) : Int), (runCommand T c s).2)
    else dataOpFrom T payload count cs (k + 1) (runCommand T c s).2

/-- The array that the glyph packing of `writeLine` produces, written out: the
data marker, 124 glyph bytes (byte `q` of the text's glyph stream, 5 per
character), and four bytes left at zero. -/
def linePayload (font data : List Nat) : List Nat :=
  0x40 :: ((List.range 124).map (fun q => font.getD (data.getD (q / 5) 0 * 5 + q % 5) 0)
    ++ [0, 0, 0, 0])

/-- An image whose 1024 bytes are all `0xFF` (every pixel lit). -/
def whiteImage : List Nat := List.replicate 1024 0xFF

/-- A glyph table whose 256 x 5 bytes are all `0xFF`. -/
def solidFont : List Nat := List.replicate 1280 0xFF

/-- A text of 25 characters, each the code 65. -/
def textA : List Nat := List.replicate 25 65

/-- Transport that reports every write of `setScroll` as complete. -/
def scrollTransport : Transport := fun k => if k = 1 then 6 else 2

/-- Transport that completes the deactivate frame and the parameter block of
`setScroll` and refuses the activate frame. -/
def scrollRefuseLast : Transport := fun k => if k = 0 then 2 else if k = 1 then 6 else 0

/-! ## Command frames -/

theorem runCommand_fst (T : Transport) (c : Nat) (s : SSD1306) :
    (runCommand T c s).1 = if T s.bus.length = 2 then 0 else -1 := by
  unfold runCommand write
  by_cases h : T s.bus.length = 2 <;> simp [h]

theorem runCommand_snd (T : Transport) (c : Nat) (s : SSD1306) :
    (runCommand T c s).2 = { s with bus := s.bus ++ [frame c] } := by
  unfold runCommand write frame
  by_cases h : T s.bus.length = 2 <;> simp [h]

theorem runCommand_neg_iff (T : Transport) (c : Nat) (s : SSD1306) :
    (runCommand T c s).1 < 0 ↔ T s.bus.length ≠ 2 := by
  rw [runCommand_fst]
  by_cases h : T s.bus.length = 2 <;> simp [h]

/-- What a run of command frames does: either every frame was accepted and all
were sent, or the first refused frame is the last one sent and is reported. -/
theorem sendFrames_spec (T : Transport) (cs : List Nat) (k : Nat) (s : SSD1306) :
    ((sendFrames T cs k s).1 = 0 ∧
        (sendFrames T cs k s).2 = { s with bus := s.bus ++ cs.map frame } ∧
        ∀ i, i < cs.length → T (s.bus.length + i) = 2) ∨
    (∃ j, j < cs.length ∧ (sendFrames T cs k s).1 = k + j + 1 ∧
        (sendFrames T cs k s).2 = { s with bus := s.bus ++ (cs.take (j + 1)).map frame } ∧
        (∀ i, i < j → T (s.bus.length + i) = 2) ∧ T (s.bus.length + j) ≠ 2) := by
  induction cs generalizing k s with
  | nil => left; simp [sendFrames]
  | cons c cs ih =>
    by_cases h : T s.bus.length = 2
    · have hneg : ¬ (runCommand T c s).1 < 0 := by
        rw [runCommand_neg_iff]; simpa using h
      simp only [sendFrames, hneg, if_false, runCommand_snd]
      rcases ih (k + 1) { s with bus := s.bus ++ [frame c] } with ⟨h1, h2, h3⟩ | ⟨j, hj, h1, h2, h3, h4⟩
      · left
        refine ⟨h1, ?_, ?_⟩
        · rw [h2]; simp
        · intro i hi
          cases i with
          | zero => simpa using h
          | succ i =>
            have := h3 i (by simpa using hi)
            simpa [Nat.add_assoc, Nat.add_comm 1 i] using this
      · right
        refine ⟨j + 1, by simpa using hj, ?_, ?_, ?_, ?_⟩
        · rw [h1]; omega
        · rw [h2]; simp
        · intro i hi
          cases i with
          | zero => simpa using h
          | succ i =>
            have := h3 i (by omega)
            simpa [Nat.add_assoc, Nat.add_comm 1 i] using this
        · simpa [Nat.add_assoc, Nat.add_comm 1 j] using h4
    · have hneg : (runCommand T c s).1 < 0 := by
        rw [runCommand_neg_iff]; exact h
      right
      refine ⟨0, by simp, ?_, ?_, ?_, ?_⟩
      · simp [sendFrames, hneg]
      · simp [sendFrames, hneg, runCommand_snd]
      · intro i hi; omega
      · simpa using h

/-! ## The data-bearing operations have the reference shape -/

theorem writeImage_eq_dataOpFrom (C : Commands) (T : Transport) (data : List Nat)
    (s : SSD1306) :
    writeImage C T data s =
      dataOpFrom T
        (writeImageLoop data 1 ((memset0 (Ssd1306LcdWitdh * SSD1306LcdPages + 1)).set 0 0x40))
        (Ssd1306LcdWitdh * SSD1306LcdPages + 1)
        [C.ssd1306ColumnAddress, 0, Ssd1306LcdWitdh - 1, C.ssd1306PageAddress, 0,
          SSD1306LcdPages - 1] 0 s := by
  simp only [writeImage, dataOpFrom]
  norm_num

theorem writeLine_eq_dataOpFrom (C : Commands) (font : List Nat) (T : Transport) (page : Nat)
    (data : List Nat) (s : SSD1306) :
    writeLine C font T page data s =
      dataOpFrom T
        (writeLineLoop font data 1 0 0 ((memset0 (Ssd1306LcdWitdh + 1)).set 0 0x40))
        (Ssd1306LcdWitdh + 1)
        [C.ssd1306ColumnAddress, 0, Ssd1306LcdWitdh - 1, C.ssd1306PageAddress, page, page] 0 s := by
  simp only [writeLine, dataOpFrom]
  norm_num

theorem writeByte_eq_dataOpFrom (C : Commands) (T : Transport) (line position data : Nat)
    (s : SSD1306) :
    some (writeByte C T line position data s) =
      dataOpFrom T (some [0x40, data]) 2
        [C.ssd1306ColumnAddress, position, position, C.ssd1306PageAddress, line, line] 0 s := by
  simp only [writeByte, dataOpFrom]
  norm_num
  split_ifs <;> rfl

theorem clearLine_eq_dataOpFrom (C : Commands) (T : Transport) (line : Int) (s : SSD1306) :
    some (clearLine C T line s) =
      dataOpFrom T (some ((memset0 128).set 0 0x40)) 129
        [C.ssd1306ColumnAddress, 0, Ssd1306LcdWitdh - 1, C.ssd1306PageAddress, toUChar line,
          toUChar line] 0 s := by
  simp only [clearLine, dataOpFrom]
  norm_num
  split_ifs <;> rfl

theorem clearDisplay_eq_dataOpFrom (C : Commands) (T : Transport) (s : SSD1306) :
    some (clearDisplay C T s) =
      dataOpFrom T (some ((memset0 1025).set 0 0x40)) 1025
        [C.ssd1306ColumnAddress, 0, Ssd1306LcdWitdh - 1, C.ssd1306PageAddress, 0,
          SSD1306LcdPages - 1] 0 s := by
  simp only [clearDisplay, dataOpFrom]
  norm_num
  split_ifs <;> rfl

/-- A data-bearing operation is a run of command frames followed by the payload write. -/
theorem dataOpFrom_eq_sendFrames (T : Transport) (payload : Option (List Nat)) (count : Nat)
    (cs : List Nat) (k : Nat) (s : SSD1306) :
    dataOpFrom T payload count cs k s =
      if (sendFrames T cs k s).1 ≠ 0 then
        some (-((sendFrames T cs k s).1 : Int), (sendFrames T cs k s).2)
      else dataOpFrom T payload count [] 0 (sendFrames T cs k s).2 := by
  induction cs generalizing k s with
  | nil => simp [sendFrames, dataOpFrom]
  | cons c cs ih =>
    by_cases h : (runCommand T c s).1 < 0
    · simp [sendFrames, dataOpFrom, h]
    · simp only [sendFrames, dataOpFrom, h, if_false]
      exact ih (k + 1) _

/-- A refused command frame aborts the operation: the status is minus the position
of the frame and the frame is the last write. -/
theorem dataOpFrom_abort (T : Transport) (payload : Option (List Nat)) (count : Nat)
    (cs : List Nat) (s : SSD1306) (j : Nat) (hj : j < cs.length)
    (hok : ∀ i, i < j → T (s.bus.length + i) = 2) (hbad : T (s.bus.length + j) ≠ 2) :
    dataOpFrom T payload count cs 0 s =
      some (-((j + 1 : Nat) : Int), { s with bus := s.bus ++ (cs.take (j + 1)).map frame }) := by
  rw [dataOpFrom_eq_sendFrames]
  rcases sendFrames_spec T cs 0 s with ⟨_, _, h3⟩ | ⟨j2, hj2, h1, h2, h3, h4⟩
  · exact absurd (h3 j hj) hbad
  · have hjj : j2 = j := by
      rcases Nat.lt_trichotomy j2 j with hlt | heq | hgt
      · exact absurd (hok j2 hlt) h4
      · exact heq
      · exact absurd (h3 j hgt) hbad
    subst hjj
    have hne : (sendFrames T cs 0 s).1 ≠ 0 := by rw [h1]; omega
    rw [if_pos hne, h1, h2]
    simp

/-- When every command frame is accepted, the payload write follows them and closes
the operation; its result only matters through its sign. -/
theorem dataOpFrom_accept (T : Transport) (buffer : List Nat) (count : Nat)
    (cs : List Nat) (s : SSD1306)
    (hok : ∀ i, i < cs.length → T (s.bus.length + i) = 2) :
    dataOpFrom T (some buffer) count cs 0 s =
      some (if T (s.bus.length + cs.length) < 0 then -7 else 0,
        { s with bus := s.bus ++ cs.map frame ++ [⟨buffer, count⟩] }) := by
  rw [dataOpFrom_eq_sendFrames]
  rcases sendFrames_spec T cs 0 s with ⟨h1, h2, _⟩ | ⟨j2, hj2, _, _, _, h4⟩
  · rw [h1, h2]
    by_cases h : T (s.bus.length + cs.length) < 0 <;> simp [dataOpFrom, write, h]
  · exact absurd (hok j2 hj2) h4

/-- An array that could not be built is only reached when every frame was accepted. -/
theorem dataOpFrom_none (T : Transport) (count : Nat) (cs : List Nat) (s : SSD1306)
    (hok : ∀ i, i < cs.length → T (s.bus.length + i) = 2) :
    dataOpFrom T none count cs 0 s = none := by
  rw [dataOpFrom_eq_sendFrames]
  rcases sendFrames_spec T cs 0 s with ⟨h1, _, _⟩ | ⟨j2, hj2, _, _, _, h4⟩
  · rw [h1]; simp [dataOpFrom]
  · exact absurd (hok j2 hj2) h4

/-- The transport either accepts every command frame or refuses a first one. -/
theorem frames_dichotomy (T : Transport) (n m : Nat) :
    (∀ i, i < m → T (n + i) = 2) ∨
    (∃ j, j < m ∧ (∀ i, i < j → T (n + i) = 2) ∧ T (n + j) ≠ 2) := by
  induction m with
  | zero => left; intro i hi; omega
  | succ m ih =>
    rcases ih with h | ⟨j, hj, h1, h2⟩
    · by_cases hm : T (n + m) = 2
      · left
        intro i hi
        rcases Nat.lt_succ_iff_lt_or_eq.mp hi with h3 | h3
        · exact h i h3
        · rw [h3]; exact hm
      · right; exact ⟨m, by omega, h, hm⟩
    · right; exact ⟨j, by omega, h1, h2⟩



/-! ## The payload loops -/

theorem writeImageLoop_spec (data : List Nat) (hd : data.length = 1024) (m : Nat) :
    ∀ (i : Nat) (buffer : List Nat), m = 1024 - i → 1 ≤ i → buffer.length = 1025 →
      ∃ r, writeImageLoop data i buffer = some r ∧ r.length = 1025 ∧
        ∀ j, r[j]? = if i ≤ j ∧ j < 1024 then data[j - 1]? else buffer[j]? := by
  induction m with
  | zero =>
    intro i buffer hm hi hb
    refine ⟨buffer, ?_, hb, ?_⟩
    · rw [writeImageLoop]
      have : ¬ i < Ssd1306LcdWitdh * SSD1306LcdPages := by
        simp only [Ssd1306LcdWitdh, SSD1306LcdPages]; omega
      simp [this]
    · intro j
      have : ¬ (i ≤ j ∧ j < 1024) := by omega
      simp [this]
  | succ m ih =>
    intro i buffer hm hi hb
    have hlt : i < Ssd1306LcdWitdh * SSD1306LcdPages := by
      simp only [Ssd1306LcdWitdh, SSD1306LcdPages]; omega
    have hdi : i - 1 < data.length := by omega
    have hbi : i < buffer.length := by omega
    obtain ⟨r, hr, hlen, hget⟩ := ih (i + 1) (buffer.set i (data[i - 1])) (by omega) (by omega)
      (by simpa using hb)
    refine ⟨r, ?_, hlen, ?_⟩
    · rw [writeImageLoop]
      simp only [hlt, if_true, List.getElem?_eq_getElem hdi, hbi]
      exact hr
    · intro j
      rw [hget j]
      by_cases hj : j = i
      · subst hj
        have h1 : ¬ (j + 1 ≤ j ∧ j < 1024) := by omega
        have h2 : (j ≤ j ∧ j < 1024) := by omega
        simp [h1, h2, List.getElem?_eq_getElem hdi, hbi]
      · by_cases h3 : i + 1 ≤ j ∧ j < 1024
        · have h4 : i ≤ j ∧ j < 1024 := by omega
          simp [h3, h4]
        · have h4 : ¬ (i ≤ j ∧ j < 1024) := by omega
          have h5 : i ≠ j := fun h => hj h.symm
          simp [h3, h4, List.getElem?_set_ne h5]


theorem memset0_set_getElem? (n v j : Nat) :
    ((memset0 n).set 0 v)[j]? = if j < n then some (if j = 0 then v else 0) else none := by
  unfold memset0
  rw [List.getElem?_set]
  by_cases h0 : j = 0
  · subst h0
    by_cases hn : 0 < n <;> simp [hn]
  · have h1 : ¬ (0 = j) := fun h => h0 h.symm
    by_cases hn : j < n
    · simp [h0, h1, hn, List.getElem?_replicate]
    · simp [h0, h1, hn, List.getElem?_replicate]

theorem writeImage_payload (data : List Nat) (hd : data.length = 1024) :
    writeImageLoop data 1 ((memset0 (Ssd1306LcdWitdh * SSD1306LcdPages + 1)).set 0 0x40) =
      some (0x40 :: (data.take 1023 ++ [0])) := by
  obtain ⟨r, hr, _, hget⟩ := writeImageLoop_spec data hd 1023 1
    ((memset0 (Ssd1306LcdWitdh * SSD1306LcdPages + 1)).set 0 0x40) (by omega) (by omega)
    (by rw [List.length_set, memset0, List.length_replicate]; rfl)
  rw [hr]
  congr 1
  apply List.ext_getElem?
  intro j
  rw [hget j, memset0_set_getElem?]
  cases j with
  | zero =>
    have hW : (0 : Nat) < Ssd1306LcdWitdh * SSD1306LcdPages + 1 := Nat.succ_pos _
    have h2 : ¬ (1 ≤ 0 ∧ 0 < 1024) := by omega
    rw [if_neg h2, if_pos hW]
    simp
  | succ j =>
    simp only [List.getElem?_cons_succ, Nat.add_sub_cancel]
    by_cases h1 : j + 1 < 1024
    · have h2 : 1 ≤ j + 1 ∧ j + 1 < 1024 := by omega
      have h3 : j < (data.take 1023).length := by simp [hd]; omega
      rw [if_pos h2, List.getElem?_append_left h3, List.getElem?_take_of_lt (by omega)]
    · have h2 : ¬ (1 ≤ j + 1 ∧ j + 1 < 1024) := by omega
      have h3 : (data.take 1023).length ≤ j := by simp [hd]; omega
      rw [if_neg h2, List.getElem?_append_right h3]
      have h4 : (data.take 1023).length = 1023 := by simp [hd]
      rw [h4]
      by_cases h5 : j = 1023
      · subst h5
        have hW : 1023 + 1 < Ssd1306LcdWitdh * SSD1306LcdPages + 1 := by
          simp only [Ssd1306LcdWitdh, SSD1306LcdPages]; omega
        rw [if_pos hW]
        simp
      · have h6 : ¬ (j + 1 < Ssd1306LcdWitdh * SSD1306LcdPages + 1) := by
          simp only [Ssd1306LcdWitdh, SSD1306LcdPages]; omega
        have h7 : 1 ≤ j - 1023 := by omega
        rw [if_neg h6]
        obtain ⟨t, ht⟩ : ∃ t, j - 1023 = t + 1 := ⟨j - 1024, by omega⟩
        rw [ht]; simp


theorem writeLineLoop_tail (font data : List Nat) (m : Nat) :
    ∀ (i offset f : Nat) (buffer : List Nat), m = 127 - i → 125 ≤ i →
      writeLineLoop font data i offset f buffer = some buffer := by
  induction m with
  | zero =>
    intro i offset f buffer hm hi
    rw [writeLineLoop]
    have : ¬ i < 127 := by omega
    simp [this]
  | succ m ih =>
    intro i offset f buffer hm hi
    rw [writeLineLoop]
    have h1 : i < 127 := by omega
    have h2 : ¬ i < 125 := by omega
    simp only [h1, h2, if_true, if_false]
    exact ih (i + 1) _ _ buffer (by omega) (by omega)

/-- The byte that the packing loop stores at index `j` of the payload. -/
theorem writeLineLoop_spec (font data : List Nat) (hd : data.length = 25)
    (hf : font.length = 1280) (hb : ∀ c ∈ data, c < 256) (m : Nat) :
    ∀ (i offset f : Nat) (buffer : List Nat), m = 125 - i → 1 ≤ i → i ≤ 125 →
      buffer.length = 129 → offset * 5 + f = i - 1 → f ≤ 5 →
      ∃ r, writeLineLoop font data i offset f buffer = some r ∧ r.length = 129 ∧
        ∀ j, r[j]? = if i ≤ j ∧ j < 125 then
            some (font.getD (data.getD ((j - 1) / 5) 0 * 5 + (j - 1) % 5) 0)
          else buffer[j]? := by
  induction m with
  | zero =>
    intro i offset f buffer hm hi hi2 hbuf _ _
    refine ⟨buffer, writeLineLoop_tail font data _ i offset f buffer rfl (by omega), hbuf, ?_⟩
    intro j
    have : ¬ (i ≤ j ∧ j < 125) := by omega
    simp [this]
  | succ m ih =>
    intro i offset f buffer hm hi hi2 hbuf hinv hf5
    have h1 : i < 127 := by omega
    have h2 : i < 125 := by omega
    have e1 : (if f = 5 then offset + 1 else offset) = (i - 1) / 5 := by split_ifs <;> omega
    have e2 : (if f = 5 then 0 else f) = (i - 1) % 5 := by split_ifs <;> omega
    have hq : (i - 1) / 5 < data.length := by omega
    have hc : data[(i - 1) / 5] < 256 := hb _ (List.getElem_mem hq)
    have hg : data[(i - 1) / 5] * 5 + (i - 1) % 5 < font.length := by omega
    have hbi : i < buffer.length := by omega
    obtain ⟨r, hr, hlen, hget⟩ := ih (i + 1) ((i - 1) / 5) ((i - 1) % 5 + 1)
      (buffer.set i (font[data[(i - 1) / 5] * 5 + (i - 1) % 5])) (by omega) (by omega) (by omega)
      (by simpa using hbuf) (by omega) (by omega)
    refine ⟨r, ?_, hlen, ?_⟩
    · rw [writeLineLoop]
      simp only [e1, e2, h1, h2, if_true, List.getElem?_eq_getElem hq,
        List.getElem?_eq_getElem hg, hbi]
      exact hr
    · intro j
      rw [hget j]
      by_cases hj : j = i
      · subst hj
        have h3 : ¬ (j + 1 ≤ j ∧ j < 125) := by omega
        have h4 : (j ≤ j ∧ j < 125) := by omega
        rw [if_neg h3, if_pos h4, List.getElem?_set_self hbi, List.getD_eq_getElem _ _ hq,
          List.getD_eq_getElem _ _ hg]
      · by_cases h3 : i + 1 ≤ j ∧ j < 125
        · have h4 : i ≤ j ∧ j < 125 := by omega
          rw [if_pos h3, if_pos h4]
        · have h4 : ¬ (i ≤ j ∧ j < 125) := by omega
          have h5 : i ≠ j := fun h => hj h.symm
          rw [if_neg h3, if_neg h4, List.getElem?_set_ne h5]

theorem writeLine_payload (font data : List Nat) (hd : data.length = 25)
    (hf : font.length = 1280) (hb : ∀ c ∈ data, c < 256) :
    writeLineLoop font data 1 0 0 ((memset0 (Ssd1306LcdWitdh + 1)).set 0 0x40) =
      some (linePayload font data) := by
  obtain ⟨r, hr, _, hget⟩ := writeLineLoop_spec font data hd hf hb 124 1 0 0
    ((memset0 (Ssd1306LcdWitdh + 1)).set 0 0x40) (by omega) (by omega) (by omega)
    (by rw [List.length_set, memset0, List.length_replicate]; rfl) (by omega) (by omega)
  rw [hr]
  congr 1
  apply List.ext_getElem?
  intro j
  rw [hget j, memset0_set_getElem?]
  unfold linePayload
  cases j with
  | zero =>
    have hW : (0 : Nat) < Ssd1306LcdWitdh + 1 := Nat.succ_pos _
    have h2 : ¬ (1 ≤ 0 ∧ 0 < 125) := by omega
    rw [if_neg h2, if_pos hW]
    simp
  | succ j =>
    simp only [List.getElem?_cons_succ, Nat.add_sub_cancel]
    by_cases h1 : j + 1 < 125
    · have h2 : 1 ≤ j + 1 ∧ j + 1 < 125 := by omega
      have h3 : j < ((List.range 124).map
          (fun q => font.getD (data.getD (q / 5) 0 * 5 + q % 5) 0)).length := by
        simp; omega
      have h4 : j < 124 := by omega
      rw [if_pos h2, List.getElem?_append_left h3, List.getElem?_map,
        List.getElem?_range h4]
      rfl
    · have h2 : ¬ (1 ≤ j + 1 ∧ j + 1 < 125) := by omega
      have h3 : ((List.range 124).map
          (fun q => font.getD (data.getD (q / 5) 0 * 5 + q % 5) 0)).length ≤ j := by
        simp; omega
      have h4 : ((List.range 124).map
          (fun q => font.getD (data.getD (q / 5) 0 * 5 + q % 5) 0)).length = 124 := by simp
      rw [if_neg h2, List.getElem?_append_right h3, h4]
      by_cases h5 : j + 1 < Ssd1306LcdWitdh + 1
      · have h6 : j + 1 ≠ 0 := by omega
        rw [if_pos h5, if_neg h6]
        have h7 : j < 128 := by simp only [Ssd1306LcdWitdh] at h5; omega
        have h8 : j - 124 = 0 ∨ j - 124 = 1 ∨ j - 124 = 2 ∨ j - 124 = 3 := by omega
        rcases h8 with h | h | h | h <;> rw [h] <;> rfl
      · rw [if_neg h5]
        have h7 : 128 ≤ j := by simp only [Ssd1306LcdWitdh] at h5; omega
        obtain ⟨t, ht⟩ : ∃ t, j - 124 = t + 4 := ⟨j - 128, by omega⟩
        rw [ht]; simp



/-! ## Complete runs of the data-bearing operations -/

theorem memset0_set_zero (n v : Nat) : (memset0 (n + 1)).set 0 v = v :: List.replicate n 0 := by
  simp [memset0, List.replicate_succ]

theorem delivered_full (b : List Nat) : (⟨b, b.length⟩ : BusWrite).delivered = some b := by
  simp [BusWrite.delivered]

theorem dataOpFrom_accept6 (T : Transport) (buffer : List Nat) (count : Nat)
    (c1 c2 c3 c4 c5 c6 : Nat) (s : SSD1306)
    (hok : ∀ i, i < 6 → T (s.bus.length + i) = 2) :
    dataOpFrom T (some buffer) count [c1, c2, c3, c4, c5, c6] 0 s =
      some (if T (s.bus.length + 6) < 0 then -7 else 0,
        { s with bus := s.bus ++ [frame c1, frame c2, frame c3, frame c4, frame c5, frame c6]
            ++ [⟨buffer, count⟩] }) :=
  dataOpFrom_accept T buffer count [c1, c2, c3, c4, c5, c6] s hok

theorem writeImage_run (C : Commands) (T : Transport) (data : List Nat) (s : SSD1306)
    (hd : data.length = 1024) (hT : ∀ i, i < 6 → T (s.bus.length + i) = 2) :
    writeImage C T data s =
      some (if T (s.bus.length + 6) < 0 then -7 else 0,
        { s with bus := s.bus ++ window C 0 127 0 7 ++
            [⟨0x40 :: (data.take 1023 ++ [0]), 1025⟩] }) := by
  rw [writeImage_eq_dataOpFrom, writeImage_payload data hd, dataOpFrom_accept6 _ _ _ _ _ _ _ _ _ _ hT]
  rfl

theorem writeLine_run (C : Commands) (font : List Nat) (T : Transport) (page : Nat)
    (data : List Nat) (s : SSD1306) (hd : data.length = 25) (hf : font.length = 1280)
    (hb : ∀ c ∈ data, c < 256) (hT : ∀ i, i < 6 → T (s.bus.length + i) = 2) :
    writeLine C font T page data s =
      some (if T (s.bus.length + 6) < 0 then -7 else 0,
        { s with bus := s.bus ++ window C 0 127 page page ++
            [⟨linePayload font data, 129⟩] }) := by
  rw [writeLine_eq_dataOpFrom, writeLine_payload font data hd hf hb,
    dataOpFrom_accept6 _ _ _ _ _ _ _ _ _ _ hT]
  rfl

theorem writeByte_run (C : Commands) (T : Transport) (line position data : Nat) (s : SSD1306)
    (hT : ∀ i, i < 6 → T (s.bus.length + i) = 2) :
    writeByte C T line position data s =
      (if T (s.bus.length + 6) < 0 then -7 else 0,
        { s with bus := s.bus ++ window C position position line line ++
            [⟨[0x40, data], 2⟩] }) := by
  have h := writeByte_eq_dataOpFrom C T line position data s
  rw [dataOpFrom_accept6 _ _ _ _ _ _ _ _ _ _ hT] at h
  exact Option.some.inj h

theorem clearLine_run (C : Commands) (T : Transport) (line : Int) (s : SSD1306)
    (hT : ∀ i, i < 6 → T (s.bus.length + i) = 2) :
    clearLine C T line s =
      (if T (s.bus.length + 6) < 0 then -7 else 0,
        { s with bus := s.bus ++ window C 0 127 (toUChar line) (toUChar line) ++
            [⟨blankPayload 128, 129⟩] }) := by
  have h := clearLine_eq_dataOpFrom C T line s
  rw [dataOpFrom_accept6 _ _ _ _ _ _ _ _ _ _ hT, memset0_set_zero 127 0x40] at h
  exact Option.some.inj h

theorem clearDisplay_run (C : Commands) (T : Transport) (s : SSD1306)
    (hT : ∀ i, i < 6 → T (s.bus.length + i) = 2) :
    clearDisplay C T s =
      (if T (s.bus.length + 6) < 0 then -7 else 0,
        { s with bus := s.bus ++ window C 0 127 0 7 ++ [⟨blankPayload 1025, 1025⟩] }) := by
  have h := clearDisplay_eq_dataOpFrom C T s
  rw [dataOpFrom_accept6 _ _ _ _ _ _ _ _ _ _ hT, memset0_set_zero 1024 0x40] at h
  exact Option.some.inj h

/-! ## Scroll set-up -/

/-- The three steps of `setScroll` and the status of each way they can end. -/
theorem setScroll_eq (C : Commands) (T : Transport)
    (scroll startPage endPage timeInterval offset : Nat) (s : SSD1306) :
    setScroll C T scroll startPage endPage timeInterval offset s =
      if T s.bus.length ≠ 2 then
        (-1, { s with bus := s.bus ++ [frame C.Ssd1306DeactivateScroll] })
      else if T (s.bus.length + 1) ≠ 6 then
        (-2, { s with bus := s.bus ++ [frame C.Ssd1306DeactivateScroll,
          ⟨[scroll, 0x00, startPage, timeInterval, endPage, offset], 6⟩] })
      else
        (if T (s.bus.length + 2) ≠ 2 then -3 else 0,
          { s with bus := s.bus ++ [frame C.Ssd1306DeactivateScroll,
            ⟨[scroll, 0x00, startPage, timeInterval, endPage, offset], 6⟩,
            frame C.Ssd1306ActivateScroll] }) := by
  unfold setScroll
  simp only [runCommand_neg_iff, runCommand_snd, write]
  by_cases h1 : T s.bus.length = 2
  · by_cases h2 : T (s.bus.length + 1) = 6
    · by_cases h3 : T (s.bus.length + 2) = 2
      · simp [h1, h2, h3, Nat.add_assoc]
      · simp [h1, h2, h3, Nat.add_assoc]
    · simp [h1, h2]
  · simp [h1]

/-! ## The claims -/

/-- C7. `runCommand` makes exactly one bus write, of the two bytes `0x00, opcode`
with requested length 2; it returns 0 exactly when the transport reports 2 for
that write, and -1 for every other reported value. -/
theorem runCommand_framing (T : Transport) (opcode : Nat) (s : SSD1306) :
    runCommand T opcode s =
      (if T s.bus.length = 2 then 0 else -1,
        { s with bus := s.bus ++ [⟨[0x00, opcode], 2⟩] }) ∧
    ((runCommand T opcode s).1 = 0 ↔ T s.bus.length = 2) := by
  have h1 := runCommand_fst T opcode s
  have h2 := runCommand_snd T opcode s
  refine ⟨Prod.ext h1 h2, ?_⟩
  rw [h1]
  by_cases h : T s.bus.length = 2 <;> simp [h]

/-- C8. When the transport accepts the three writes of `setScroll` in full (2, 6 and
2 bytes), `setScroll` returns 0 and has written, in this order, the frame
`0x00, DeactivateScroll`, the raw six bytes
`direction, 0x00, startPage, timeInterval, endPage, offset`, and the frame
`0x00, ActivateScroll`, and nothing else. -/
theorem setScroll_success_trace (C : Commands) (T : Transport)
    (direction startPage endPage timeInterval offset : Nat) (s : SSD1306)
    (h0 : T s.bus.length = 2) (h1 : T (s.bus.length + 1) = 6)
    (h2 : T (s.bus.length + 2) = 2) :
    setScroll C T direction startPage endPage timeInterval offset s =
      (0, { s with bus := s.bus ++
        [⟨[0x00, C.Ssd1306DeactivateScroll], 2⟩,
         ⟨[direction, 0x00, startPage, timeInterval, endPage, offset], 6⟩,
         ⟨[0x00, C.Ssd1306ActivateScroll], 2⟩] }) := by
  rw [setScroll_eq]
  simp [h0, h1, h2, frame]

theorem setScroll_success_trace_witness :
    setScroll sampleCommands scrollTransport 0x26 0 7 0 0 fresh =
      (0, { fresh with bus :=
        [⟨[0x00, 0x2E], 2⟩, ⟨[0x26, 0x00, 0, 0, 7, 0], 6⟩, ⟨[0x00, 0x2F], 2⟩] }) :=
  setScroll_success_trace sampleCommands scrollTransport 0x26 0 7 0 0 fresh
    (by decide) (by decide) (by decide)

/-- C9. `setScroll` returns -1, having written only the deactivate frame, when that
frame does not report 2 bytes; -2, having written the deactivate frame and the
parameter block but not the activate frame, when the block reports anything but 6;
-3 when the activate frame does not report 2; and 0 exactly when the three writes
report 2, 6 and 2.  The three failure codes differ.  In the -1 and -2 cases the
only command frame on the bus is the deactivate frame. -/
theorem setScroll_failure_codes (C : Commands) (T : Transport)
    (direction startPage endPage timeInterval offset : Nat) (s : SSD1306) :
    (T s.bus.length ≠ 2 →
      setScroll C T direction startPage endPage timeInterval offset s =
        (-1, { s with bus := s.bus ++ [⟨[0x00, C.Ssd1306DeactivateScroll], 2⟩] })) ∧
    (T s.bus.length = 2 → T (s.bus.length + 1) ≠ 6 →
      setScroll C T direction startPage endPage timeInterval offset s =
        (-2, { s with bus := s.bus ++ [⟨[0x00, C.Ssd1306DeactivateScroll], 2⟩,
          ⟨[direction, 0x00, startPage, timeInterval, endPage, offset], 6⟩] })) ∧
    (T s.bus.length = 2 → T (s.bus.length + 1) = 6 → T (s.bus.length + 2) ≠ 2 →
      setScroll C T direction startPage endPage timeInterval offset s =
        (-3, { s with bus := s.bus ++ [⟨[0x00, C.Ssd1306DeactivateScroll], 2⟩,
          ⟨[direction, 0x00, startPage, timeInterval, endPage, offset], 6⟩,
          ⟨[0x00, C.Ssd1306ActivateScroll], 2⟩] })) ∧
    ((setScroll C T direction startPage endPage timeInterval offset s).1 = 0 ↔
      T s.bus.length = 2 ∧ T (s.bus.length + 1) = 6 ∧ T (s.bus.length + 2) = 2) ∧
    ((-1 : Int) ≠ -2 ∧ (-1 : Int) ≠ -3 ∧ (-2 : Int) ≠ -3) := by
  rw [setScroll_eq]
  refine ⟨?_, ?_, ?_, ?_, by decide⟩
  · intro h0; simp [h0, frame]
  · intro h0 h1; simp [h0, h1, frame]
  · intro h0 h1 h2; simp [h0, h1, h2, frame]
  · by_cases h0 : T s.bus.length = 2
    · by_cases h1 : T (s.bus.length + 1) = 6
      · by_cases h2 : T (s.bus.length + 2) = 2 <;> simp [h0, h1, h2]
      · simp [h0, h1]
    · simp [h0]

theorem setScroll_failure_codes_witness :
    setScroll sampleCommands (failAt 0 0) 0x26 0 7 0 0 fresh =
      (-1, { fresh with bus := [⟨[0x00, 0x2E], 2⟩] }) ∧
    setScroll sampleCommands (failAt 1 0) 0x26 0 7 0 0 fresh =
      (-2, { fresh with bus := [⟨[0x00, 0x2E], 2⟩, ⟨[0x26, 0x00, 0, 0, 7, 0], 6⟩] }) ∧
    setScroll sampleCommands scrollRefuseLast 0x26 0 7 0 0 fresh =
      (-3, { fresh with bus := [⟨[0x00, 0x2E], 2⟩, ⟨[0x26, 0x00, 0, 0, 7, 0], 6⟩,
        ⟨[0x00, 0x2F], 2⟩] }) :=
  ⟨(setScroll_failure_codes sampleCommands (failAt 0 0) 0x26 0 7 0 0 fresh).1 (by decide),
   (setScroll_failure_codes sampleCommands (failAt 1 0) 0x26 0 7 0 0 fresh).2.1
     (by decide) (by decide),
   (setScroll_failure_codes sampleCommands scrollRefuseLast 0x26 0 7 0 0 fresh).2.2.1
     (by decide) (by decide) (by decide)⟩

theorem delivered_of_length (b : List Nat) (n : Nat) (h : b.length = n) :
    (⟨b, n⟩ : BusWrite).delivered = some b := by
  subst h; exact delivered_full b

/-- C10. When the six addressing frames are accepted, `clearDisplay` ends with a
single write of requested length 1025 whose array has 1025 bytes, `0x40` followed
by 1024 zero bytes, all of which are delivered. -/
theorem clearDisplay_payload (C : Commands) (T : Transport) (s : SSD1306)
    (hT : ∀ i, i < 6 → T (s.bus.length + i) = 2) :
    clearDisplay C T s =
      (if T (s.bus.length + 6) < 0 then -7 else 0,
        { s with bus := s.bus ++ window C 0 127 0 7 ++
          [⟨0x40 :: List.replicate 1024 0, 1025⟩] }) ∧
    (⟨0x40 :: List.replicate 1024 0, 1025⟩ : BusWrite).delivered =
      some (0x40 :: List.replicate 1024 0) ∧
    (0x40 :: List.replicate 1024 0).length = 1025 := by
  have hlen : (0x40 :: List.replicate 1024 0).length = 1025 := by
    rw [List.length_cons, List.length_replicate]
  exact ⟨clearDisplay_run C T s hT, delivered_of_length _ _ hlen, hlen⟩

theorem clearDisplay_payload_witness :
    clearDisplay sampleCommands (fullTransport 1025) fresh =
      (0, { fresh with bus := window sampleCommands 0 127 0 7 ++
        [⟨0x40 :: List.replicate 1024 0, 1025⟩] }) :=
  (clearDisplay_payload sampleCommands (fullTransport 1025) fresh
    (fun i hi => by simp [fullTransport, fresh, hi])).1

/-- C3 (defect in the code). `clearLine` builds an array of 128 bytes (`0x40` and
127 zero bytes) and asks the bus to transfer 129 bytes from it: the last byte
transferred lies outside the array, so the write delivers no well-defined
129-byte payload.  Shown on line 0 with a transport that accepts every write. -/
theorem clearLine_payload_overrun :
    clearLine sampleCommands (fullTransport 129) 0 fresh =
      (0, { fresh with bus := window sampleCommands 0 127 0 0 ++
        [⟨0x40 :: List.replicate 127 0, 129⟩] }) ∧
    (0x40 :: List.replicate 127 0).length = 128 ∧
    (⟨0x40 :: List.replicate 127 0, 129⟩ : BusWrite).delivered = none := by
  have hlen : (0x40 :: List.replicate 127 0).length = 128 := by
    rw [List.length_cons, List.length_replicate]
  refine ⟨?_, hlen, ?_⟩
  · rw [clearLine_run sampleCommands (fullTransport 129) 0 fresh
      (fun i hi => by simp [fullTransport, fresh, hi])]
    rfl
  · unfold BusWrite.delivered
    rw [if_neg]
    show ¬ 129 ≤ (0x40 :: List.replicate 127 0).length
    rw [hlen]; omega

/-- C1 (defect in the code). The copy loop of `writeImage` stops one byte early:
for the image whose 1024 bytes are all `0xFF`, with every write accepted, the
payload is `0x40`, 1023 bytes `0xFF` and a final byte 0, so payload byte 1024
is 0 while the last input byte is `0xFF`. -/
theorem writeImage_drops_last_byte :
    writeImage sampleCommands (fullTransport 1025) whiteImage fresh =
      some (0, { fresh with bus := window sampleCommands 0 127 0 7 ++
        [⟨0x40 :: (List.replicate 1023 0xFF ++ [0]), 1025⟩] }) ∧
    (0x40 :: (List.replicate 1023 0xFF ++ [0]))[1024]? = some 0 ∧
    whiteImage[1024 - 1]? = some 0xFF := by
  refine ⟨?_, ?_, ?_⟩
  · rw [writeImage_run sampleCommands (fullTransport 1025) whiteImage fresh
      (by rw [whiteImage, List.length_replicate])
      (fun i hi => by simp [fullTransport, fresh, hi])]
    have h : whiteImage.take 1023 = List.replicate 1023 0xFF := by
      rw [whiteImage, List.take_replicate]; rfl
    rw [h]
    rfl
  · rw [show (1024 : Nat) = 1023 + 1 from rfl, List.getElem?_cons_succ,
      List.getElem?_append_right (by rw [List.length_replicate])]
    rw [List.length_replicate]
    rfl
  · rw [whiteImage, List.getElem?_replicate]
    rfl

theorem linePayload_getElem?_125 (font data : List Nat) :
    (linePayload font data)[125]? = some 0 := by
  unfold linePayload
  show (0x40 :: ((List.range 124).map
    (fun q => font.getD (data.getD (q / 5) 0 * 5 + q % 5) 0) ++ [0, 0, 0, 0]))[124 + 1]? = some 0
  have h4 : ((List.range 124).map
      (fun q => font.getD (data.getD (q / 5) 0 * 5 + q % 5) 0)).length = 124 := by
    rw [List.length_map, List.length_range]
  rw [List.getElem?_cons_succ, List.getElem?_append_right (by rw [h4]), h4]
  rfl

/-- C2 (defect in the code). The packing loop of `writeLine` stores glyph bytes at
payload indices 1 to 124 only: index 125, the fifth column of the 25th character,
is left at zero.  Shown for 25 characters of code 65 and a glyph table whose bytes
are all `0xFF`: payload byte `5 * 24 + 1 + 4` is 0 while the glyph byte
`font[text[24] * 5 + 4]` is `0xFF`. -/
theorem writeLine_drops_last_glyph_column :
    writeLine sampleCommands solidFont (fullTransport 129) 0 textA fresh =
      some (0, { fresh with bus := window sampleCommands 0 127 0 0 ++
        [⟨linePayload solidFont textA, 129⟩] }) ∧
    (linePayload solidFont textA)[5 * 24 + 1 + 4]? = some 0 ∧
    textA[24]? = some 65 ∧ solidFont[65 * 5 + 4]? = some 0xFF := by
  refine ⟨?_, linePayload_getElem?_125 solidFont textA, ?_, ?_⟩
  · rw [writeLine_run sampleCommands solidFont (fullTransport 129) 0 textA fresh
      (by rw [textA, List.length_replicate]) (by rw [solidFont, List.length_replicate])
      (fun c hc => by rw [textA] at hc; rw [List.eq_of_mem_replicate hc]; omega)
      (fun i hi => by simp [fullTransport, fresh, hi])]
    rfl
  · rw [textA, List.getElem?_replicate]; rfl
  · rw [solidFont, List.getElem?_replicate]; rfl

/-- C5. When the six addressing frames are accepted in full (two bytes each, as a
transport that accepts every write reports), each data-bearing operation writes
exactly the frames `0x00, ColumnAddress`, `0x00, colStart`, `0x00, colEnd`,
`0x00, PageAddress`, `0x00, pageStart`, `0x00, pageEnd` in this order and then its
payload as the seventh and last write, with `(colStart, colEnd, pageStart, pageEnd)`
equal to `(0, 127, 0, 7)` for `writeImage` and `clearDisplay`, `(0, 127, page, page)`
for `writeLine` and `clearLine`, and `(position, position, line, line)` for
`writeByte`. -/
theorem addressing_window (C : Commands) (T : Transport) (s : SSD1306)
    (hT : ∀ i, i < 6 → T (s.bus.length + i) = 2) :
    (∀ data : List Nat, data.length = 1024 →
      writeImage C T data s =
        some (if T (s.bus.length + 6) < 0 then -7 else 0,
          { s with bus := s.bus ++ window C 0 127 0 7 ++
            [⟨0x40 :: (data.take 1023 ++ [0]), 1025⟩] })) ∧
    clearDisplay C T s =
      (if T (s.bus.length + 6) < 0 then -7 else 0,
        { s with bus := s.bus ++ window C 0 127 0 7 ++ [⟨blankPayload 1025, 1025⟩] }) ∧
    (∀ (font : List Nat) (page : Nat) (data : List Nat),
      data.length = 25 → font.length = 1280 → (∀ c ∈ data, c < 256) →
      writeLine C font T page data s =
        some (if T (s.bus.length + 6) < 0 then -7 else 0,
          { s with bus := s.bus ++ window C 0 127 page page ++
            [⟨linePayload font data, 129⟩] })) ∧
    (∀ page : Nat, page < 256 →
      clearLine C T (page : Int) s =
        (if T (s.bus.length + 6) < 0 then -7 else 0,
          { s with bus := s.bus ++ window C 0 127 page page ++
            [⟨blankPayload 128, 129⟩] })) ∧
    (∀ line position data : Nat,
      writeByte C T line position data s =
        (if T (s.bus.length + 6) < 0 then -7 else 0,
          { s with bus := s.bus ++ window C position position line line ++
            [⟨[0x40, data], 2⟩] })) := by
  refine ⟨fun data hd => writeImage_run C T data s hd hT, clearDisplay_run C T s hT,
    fun font page data hd hf hb => writeLine_run C font T page data s hd hf hb hT, ?_,
    fun line position data => writeByte_run C T line position data s hT⟩
  intro page hp
  rw [clearLine_run C T (page : Int) s hT]
  have h : toUChar (page : Int) = page := by
    unfold toUChar
    omega
  rw [h]

theorem addressing_window_witness :
    writeByte sampleCommands (fullTransport 2) 3 5 0xFF fresh =
      (0, { fresh with bus :=
        [⟨[0x00, 0x21], 2⟩, ⟨[0x00, 5], 2⟩, ⟨[0x00, 5], 2⟩,
         ⟨[0x00, 0x22], 2⟩, ⟨[0x00, 3], 2⟩, ⟨[0x00, 3], 2⟩, ⟨[0x40, 0xFF], 2⟩] }) ∧
    clearLine sampleCommands (fullTransport 2) 7 fresh =
      (0, { fresh with bus :=
        [⟨[0x00, 0x21], 2⟩, ⟨[0x00, 0], 2⟩, ⟨[0x00, 127], 2⟩,
         ⟨[0x00, 0x22], 2⟩, ⟨[0x00, 7], 2⟩, ⟨[0x00, 7], 2⟩, ⟨blankPayload 128, 129⟩] }) :=
  ⟨(addressing_window sampleCommands (fullTransport 2) fresh
      (fun i hi => by simp [fullTransport, fresh, hi])).2.2.2.2 3 5 0xFF,
   (addressing_window sampleCommands (fullTransport 2) fresh
      (fun i hi => by simp [fullTransport, fresh, hi])).2.2.2.1 7 (by decide)⟩

theorem dataOpFrom_abort_at (T : Transport) (payload : Option (List Nat)) (count : Nat)
    (cs0 : List Nat) (s : SSD1306) (k : Nat) (h6 : cs0.length = 6)
    (hk1 : 1 ≤ k) (hk6 : k ≤ 6)
    (hok : ∀ i, i + 1 < k → T (s.bus.length + i) = 2)
    (hbad : T (s.bus.length + (k - 1)) ≠ 2) :
    ∃ cs : List Nat, cs.length = k ∧
      dataOpFrom T payload count cs0 0 s =
        some (-(k : Int), { s with bus := s.bus ++ cs.map frame }) := by
  refine ⟨cs0.take k, by rw [List.length_take, h6]; omega, ?_⟩
  have h := dataOpFrom_abort T payload count cs0 s (k - 1) (by omega)
    (fun i hi => hok i (by omega)) hbad
  have hk : k - 1 + 1 = k := by omega
  rw [hk] at h
  exact h

/-- C6. In each of `writeImage`, `writeLine`, `writeByte`, `clearLine` and
`clearDisplay`, for `k` from 1 to 6: if the first `k - 1` command frames each report
2 bytes and the `k`-th reports anything else, the operation returns `-k` and the bus
has received exactly `k` writes of this operation, all of them command frames, so
the data payload is never sent.  The code `-k` differs from 0 and from the code of
every other position. -/
theorem abort_on_first_failing_frame (C : Commands) (font : List Nat) (T : Transport)
    (op : Op) (s : SSD1306) (k : Nat) (hop : op.hasPayload = true)
    (hk1 : 1 ≤ k) (hk6 : k ≤ 6)
    (hok : ∀ i, i + 1 < k → T (s.bus.length + i) = 2)
    (hbad : T (s.bus.length + (k - 1)) ≠ 2) :
    (∃ cs : List Nat, cs.length = k ∧
      exec C font T op s = some (-(k : Int), { s with bus := s.bus ++ cs.map frame }) ∧
      (s.bus ++ cs.map frame).length = s.bus.length + k) ∧
    -(k : Int) ≠ 0 ∧ ∀ k2 : Nat, k2 ≠ k → -(k2 : Int) ≠ -(k : Int) := by
  refine ⟨?_, by omega, fun k2 h2 => by omega⟩
  have key : ∀ (payload : Option (List Nat)) (count : Nat) (cs0 : List Nat),
      exec C font T op s = dataOpFrom T payload count cs0 0 s → cs0.length = 6 →
      ∃ cs : List Nat, cs.length = k ∧
        exec C font T op s = some (-(k : Int), { s with bus := s.bus ++ cs.map frame }) ∧
        (s.bus ++ cs.map frame).length = s.bus.length + k := by
    intro payload count cs0 he h6
    obtain ⟨cs, hlen, hrun⟩ := dataOpFrom_abort_at T payload count cs0 s k h6 hk1 hk6 hok hbad
    exact ⟨cs, hlen, he.trans hrun, by simp [hlen]⟩
  cases op with
  | runCommand c => simp [Op.hasPayload] at hop
  | setScroll a b c d e => simp [Op.hasPayload] at hop
  | writeImage data => exact key _ _ _ (writeImage_eq_dataOpFrom C T data s) rfl
  | writeLine page data => exact key _ _ _ (writeLine_eq_dataOpFrom C font T page data s) rfl
  | writeByte l p d => exact key _ _ _ (writeByte_eq_dataOpFrom C T l p d s) rfl
  | clearLine l => exact key _ _ _ (clearLine_eq_dataOpFrom C T l s) rfl
  | clearDisplay => exact key _ _ _ (clearDisplay_eq_dataOpFrom C T s) rfl

theorem abort_on_first_failing_frame_witness :
    (∃ cs : List Nat, cs.length = 4 ∧
      exec sampleCommands solidFont (failAt 3 1) (Op.writeLine 2 textA) fresh =
        some (-((4 : Nat) : Int), { fresh with bus := fresh.bus ++ cs.map frame }) ∧
      (fresh.bus ++ cs.map frame).length = fresh.bus.length + 4) ∧
    -((4 : Nat) : Int) ≠ 0 ∧ ∀ k2 : Nat, k2 ≠ 4 → -(k2 : Int) ≠ -((4 : Nat) : Int) :=
  abort_on_first_failing_frame sampleCommands solidFont (failAt 3 1) (Op.writeLine 2 textA)
    fresh 4 rfl (by decide) (by decide)
    (fun i hi => by
      have h : i < 3 := by omega
      simp [failAt, fresh, h])
    (by decide)

/-! ## Short writes -/

theorem frame_len_of_getElem? (pre : List BusWrite) (L : List Nat) (post : List BusWrite)
    (k : Nat) (w : BusWrite) (h1 : pre.length ≤ k) (h2 : k < pre.length + L.length)
    (hw : (pre ++ L.map frame ++ post)[k]? = some w) : w.len = 2 := by
  rw [List.append_assoc, List.getElem?_append_right h1,
    List.getElem?_append_left (by rw [List.length_map]; omega), List.getElem?_map] at hw
  cases h : L[k - pre.length]? with
  | none => rw [h] at hw; cases hw
  | some c =>
    rw [h] at hw
    have : frame c = w := Option.some.inj hw
    rw [← this]; rfl

theorem lt_length_of_getElem? (l : List BusWrite) (k : Nat) (w : BusWrite)
    (hw : l[k]? = some w) : k < l.length := by
  by_contra h
  rw [List.getElem?_eq_none (by omega)] at hw
  cases hw

/-- A short count on a write of a data-bearing operation. -/
theorem dataOpFrom_short (T : Transport) (payload : Option (List Nat)) (count : Nat)
    (cs : List Nat) (s : SSD1306) (r : Int × SSD1306)
    (hr : dataOpFrom T payload count cs 0 s = some r) (k : Nat) (w : BusWrite)
    (hk : s.bus.length ≤ k) (hw : r.2.bus[k]? = some w)
    (h0 : 0 ≤ T k) (hlt : T k < (w.len : Int)) :
    r.2.bus.length = k + 1 ∧
      (if k = s.bus.length + cs.length then r.1 = 0 else r.1 < 0) := by
  have hklt := lt_length_of_getElem? _ _ _ hw
  rcases frames_dichotomy T s.bus.length cs.length with hok | ⟨j, hj, hok, hbad⟩
  · cases payload with
    | none => rw [dataOpFrom_none T count cs s hok] at hr; cases hr
    | some b =>
      rw [dataOpFrom_accept T b count cs s hok] at hr
      have hr2 := Option.some.inj hr
      subst hr2
      simp only [List.length_append, List.length_map, List.length_singleton] at hklt ⊢
      by_cases hk2 : k < s.bus.length + cs.length
      · exfalso
        have hlen := frame_len_of_getElem? s.bus cs [⟨b, count⟩] k w hk hk2 hw
        have hT := hok (k - s.bus.length) (by omega)
        rw [show s.bus.length + (k - s.bus.length) = k by omega] at hT
        rw [hlen, hT] at hlt
        omega
      · have hke : k = s.bus.length + cs.length := by omega
        refine ⟨by omega, ?_⟩
        rw [if_pos hke]
        have : ¬ T (s.bus.length + cs.length) < 0 := by rw [← hke]; omega
        simp [this]
  · rw [dataOpFrom_abort T payload count cs s j hj hok hbad] at hr
    have hr2 := Option.some.inj hr
    subst hr2
    have hlen6 : (cs.take (j + 1)).length = j + 1 := by rw [List.length_take]; omega
    simp only [List.length_append, List.length_map, hlen6] at hklt ⊢
    by_cases hk2 : k < s.bus.length + j
    · exfalso
      have hw2 : (s.bus ++ (cs.take (j + 1)).map frame ++ [])[k]? = some w := by
        rw [List.append_nil]; exact hw
      have hlen := frame_len_of_getElem? s.bus (cs.take (j + 1)) [] k w hk
        (by rw [hlen6]; omega) hw2
      have hT := hok (k - s.bus.length) (by omega)
      rw [show s.bus.length + (k - s.bus.length) = k by omega] at hT
      rw [hlen, hT] at hlt
      omega
    · refine ⟨by omega, ?_⟩
      have hne : ¬ k = s.bus.length + cs.length := by omega
      rw [if_neg hne]
      show -((j + 1 : Nat) : Int) < 0
      omega

theorem runCommand_short (T : Transport) (c : Nat) (s : SSD1306) (k : Nat) (w : BusWrite)
    (hk : s.bus.length ≤ k) (hw : (runCommand T c s).2.bus[k]? = some w)
    (hlt : T k < (w.len : Int)) :
    (runCommand T c s).2.bus.length = k + 1 ∧ (runCommand T c s).1 < 0 := by
  have hklt := lt_length_of_getElem? _ _ _ hw
  rw [runCommand_snd] at hw hklt ⊢
  simp only [List.length_append, List.length_singleton] at hklt ⊢
  have hke : k = s.bus.length := by omega
  have hw2 : (s.bus ++ [c].map frame ++ [])[k]? = some w := by
    rw [List.append_nil]; exact hw
  have hlen := frame_len_of_getElem? s.bus [c] [] k w hk (by simp; omega) hw2
  rw [hlen, hke] at hlt
  refine ⟨by omega, ?_⟩
  rw [runCommand_neg_iff]
  intro h
  rw [h] at hlt
  omega

theorem setScroll_short (C : Commands) (T : Transport)
    (scroll startPage endPage timeInterval offset : Nat) (s : SSD1306) (k : Nat) (w : BusWrite)
    (hk : s.bus.length ≤ k)
    (hw : (setScroll C T scroll startPage endPage timeInterval offset s).2.bus[k]? = some w)
    (hlt : T k < (w.len : Int)) :
    (setScroll C T scroll startPage endPage timeInterval offset s).2.bus.length = k + 1 ∧
      (setScroll C T scroll startPage endPage timeInterval offset s).1 < 0 := by
  have hklt := lt_length_of_getElem? _ _ _ hw
  rw [setScroll_eq] at hw hklt ⊢
  by_cases h1 : T s.bus.length = 2
  · by_cases h2 : T (s.bus.length + 1) = 6
    · simp only [h1, h2, ne_eq, not_true_eq_false, if_false, List.length_append,
        List.length_cons, List.length_nil] at hw hklt ⊢
      rw [List.getElem?_append_right hk] at hw
      have hcases : k - s.bus.length = 0 ∨ k - s.bus.length = 1 ∨ k - s.bus.length = 2 := by
        omega
      rcases hcases with h | h | h
      · exfalso
        rw [h] at hw
        have hw3 : frame C.Ssd1306DeactivateScroll = w := by simpa using hw
        rw [← hw3, show k = s.bus.length by omega, h1] at hlt
        simp [frame] at hlt
      · exfalso
        rw [h] at hw
        have hw3 : (⟨[scroll, 0x00, startPage, timeInterval, endPage, offset], 6⟩ : BusWrite)
            = w := by simpa using hw
        rw [← hw3, show k = s.bus.length + 1 by omega, h2] at hlt
        simp at hlt
      · rw [h] at hw
        have hw3 : frame C.Ssd1306ActivateScroll = w := by simpa using hw
        rw [← hw3, show k = s.bus.length + 2 by omega] at hlt
        have h3 : T (s.bus.length + 2) ≠ 2 := by
          intro h3; rw [h3] at hlt; simp [frame] at hlt
        refine ⟨by omega, ?_⟩
        simp [h3]
    · simp only [h1, h2, ne_eq, not_true_eq_false, not_false_eq_true, if_true, if_false,
        List.length_append, List.length_cons, List.length_nil] at hw hklt ⊢
      rw [List.getElem?_append_right hk] at hw
      have hcases : k - s.bus.length = 0 ∨ k - s.bus.length = 1 := by omega
      rcases hcases with h | h
      · exfalso
        rw [h] at hw
        have hw3 : frame C.Ssd1306DeactivateScroll = w := by simpa using hw
        rw [← hw3, show k = s.bus.length by omega, h1] at hlt
        simp [frame] at hlt
      · exact ⟨by omega, by decide⟩
  · simp only [h1, ne_eq, not_false_eq_true, if_true, List.length_append,
      List.length_cons, List.length_nil] at hw hklt ⊢
    exact ⟨by omega, by decide⟩

/-- What the code does with a short count, for every operation and every bus write
it makes: if the transport reports for that write a count that is not negative but
smaller than the requested length, then that write is the last one of the
operation; the status is negative when the write is a command frame or the scroll
parameter block, whose counts are compared with the requested length, and it is 0
when the write is the final data payload of a data-bearing operation, whose result
is only tested for being negative. -/
theorem short_write_outcome (C : Commands) (font : List Nat) (T : Transport) (op : Op)
    (s : SSD1306) (r : Int × SSD1306) (k : Nat) (w : BusWrite)
    (hr : exec C font T op s = some r)
    (hk : s.bus.length ≤ k) (hw : r.2.bus[k]? = some w)
    (h0 : 0 ≤ T k) (hlt : T k < (w.len : Int)) :
    r.2.bus.length = k + 1 ∧
      (if op.hasPayload = true ∧ k = s.bus.length + 6 then r.1 = 0 else r.1 < 0) := by
  have key : ∀ (payload : Option (List Nat)) (count : Nat) (cs : List Nat),
      exec C font T op s = dataOpFrom T payload count cs 0 s → cs.length = 6 →
      op.hasPayload = true →
      r.2.bus.length = k + 1 ∧
        (if op.hasPayload = true ∧ k = s.bus.length + 6 then r.1 = 0 else r.1 < 0) := by
    intro payload count cs he h6 hp
    have h := dataOpFrom_short T payload count cs s r (he.symm.trans hr) k w hk hw h0 hlt
    rw [h6] at h
    simpa [hp] using h
  cases op with
  | runCommand c =>
    have hr2 : runCommand T c s = r := Option.some.inj hr
    subst hr2
    have h := runCommand_short T c s k w hk hw hlt
    simpa [Op.hasPayload] using h
  | setScroll a b c d e =>
    have hr2 : setScroll C T a b c d e s = r := Option.some.inj hr
    subst hr2
    have h := setScroll_short C T a b c d e s k w hk hw hlt
    simpa [Op.hasPayload] using h
  | writeImage data => exact key _ _ _ (writeImage_eq_dataOpFrom C T data s) rfl rfl
  | writeLine page data =>
    exact key _ _ _ (writeLine_eq_dataOpFrom C font T page data s) rfl rfl
  | writeByte l p d => exact key _ _ _ (writeByte_eq_dataOpFrom C T l p d s) rfl rfl
  | clearLine l => exact key _ _ _ (clearLine_eq_dataOpFrom C T l s) rfl rfl
  | clearDisplay => exact key _ _ _ (clearDisplay_eq_dataOpFrom C T s) rfl rfl

theorem short_write_outcome_witness :
    ((writeByte sampleCommands (fullTransport 1) 3 5 0xFF fresh).2.bus.length = 6 + 1 ∧
      (if (Op.writeByte 3 5 0xFF).hasPayload = true ∧ 6 = fresh.bus.length + 6 then
        (writeByte sampleCommands (fullTransport 1) 3 5 0xFF fresh).1 = 0
      else (writeByte sampleCommands (fullTransport 1) 3 5 0xFF fresh).1 < 0)) ∧
    ((runCommand (failAt 0 1) 0xAF fresh).2.bus.length = 0 + 1 ∧
      (if (Op.runCommand 0xAF).hasPayload = true ∧ 0 = fresh.bus.length + 6 then
        (runCommand (failAt 0 1) 0xAF fresh).1 = 0
      else (runCommand (failAt 0 1) 0xAF fresh).1 < 0)) :=
  ⟨short_write_outcome sampleCommands solidFont (fullTransport 1) (Op.writeByte 3 5 0xFF)
      fresh (writeByte sampleCommands (fullTransport 1) 3 5 0xFF fresh)
      6 ⟨[0x40, 0xFF], 2⟩ rfl (by decide) rfl (by decide) (by decide),
   short_write_outcome sampleCommands solidFont (failAt 0 1) (Op.runCommand 0xAF)
      fresh (runCommand (failAt 0 1) 0xAF fresh) 0 ⟨[0x00, 0xAF], 2⟩ rfl (by decide) rfl
      (by decide) (by decide)⟩

/-- C4 (defect in the code). A short payload write is taken for a success: in
`writeByte`, after six accepted command frames, the transport reports 1 byte for
the payload write, whose requested length is 2, and the operation returns 0 and
not a negative status.  The payload writes of the five data-bearing operations are
tested with `< 0` only, while `runCommand` compares the count with 2 and
`setScroll` with 6. -/
theorem short_payload_write_returns_zero :
    fullTransport 1 6 = 1 ∧
    writeByte sampleCommands (fullTransport 1) 3 5 0xFF fresh =
      (0, { fresh with bus := window sampleCommands 5 5 3 3 ++ [⟨[0x40, 0xFF], 2⟩] }) ∧
    ¬ (writeByte sampleCommands (fullTransport 1) 3 5 0xFF fresh).1 < 0 := by
  have h := writeByte_run sampleCommands (fullTransport 1) 3 5 0xFF fresh
    (fun i hi => by simp [fullTransport, fresh, hi])
  have h2 : writeByte sampleCommands (fullTransport 1) 3 5 0xFF fresh =
      (0, { fresh with bus := window sampleCommands 5 5 3 3 ++ [⟨[0x40, 0xFF], 2⟩] }) := by
    rw [h]; rfl
  refine ⟨rfl, h2, ?_⟩
  rw [h2]
  decide

/-! ## The peripheral address -/

theorem setAddress_bus (a : Nat) (s : SSD1306) : (setAddress a s).2.bus = s.bus := by
  unfold setAddress
  split_ifs <;> rfl

/-- No run of command frames and no payload write touches the stored address. -/
theorem dataOpFrom_mAddress (T : Transport) (payload : Option (List Nat)) (count : Nat)
    (cs : List Nat) (k : Nat) (s : SSD1306) (r : Int × SSD1306)
    (h : dataOpFrom T payload count cs k s = some r) : r.2.mAddress = s.mAddress := by
  induction cs generalizing k s with
  | nil =>
    cases payload with
    | none => simp [dataOpFrom] at h
    | some b =>
      simp only [dataOpFrom, write] at h
      split_ifs at h <;> (cases h; rfl)
  | cons c cs ih =>
    simp only [dataOpFrom] at h
    split_ifs at h
    · cases h
      rw [runCommand_snd]
    · have h2 := ih (k + 1) _ h
      rw [h2, runCommand_snd]

theorem setScroll_mAddress (C : Commands) (T : Transport)
    (scroll startPage endPage timeInterval offset : Nat) (s : SSD1306) :
    (setScroll C T scroll startPage endPage timeInterval offset s).2.mAddress = s.mAddress := by
  rw [setScroll_eq]
  split_ifs <;> rfl

/-- Every operation that writes to the bus leaves the stored address as it was. -/
theorem exec_mAddress (C : Commands) (font : List Nat) (T : Transport) (op : Op)
    (s : SSD1306) (r : Int × SSD1306) (h : exec C font T op s = some r) :
    r.2.mAddress = s.mAddress := by
  cases op with
  | runCommand c =>
    have h2 : runCommand T c s = r := Option.some.inj h
    rw [← h2, runCommand_snd]
  | setScroll a b c d e =>
    have h2 : setScroll C T a b c d e s = r := Option.some.inj h
    rw [← h2, setScroll_mAddress]
  | writeImage data =>
    exact dataOpFrom_mAddress T _ _ _ 0 s r ((writeImage_eq_dataOpFrom C T data s).symm.trans h)
  | writeLine page data =>
    exact dataOpFrom_mAddress T _ _ _ 0 s r
      ((writeLine_eq_dataOpFrom C font T page data s).symm.trans h)
  | writeByte l p d =>
    exact dataOpFrom_mAddress T _ _ _ 0 s r ((writeByte_eq_dataOpFrom C T l p d s).symm.trans h)
  | clearLine l =>
    exact dataOpFrom_mAddress T _ _ _ 0 s r ((clearLine_eq_dataOpFrom C T l s).symm.trans h)
  | clearDisplay =>
    exact dataOpFrom_mAddress T _ _ _ 0 s r ((clearDisplay_eq_dataOpFrom C T s).symm.trans h)

/-- C13. For every value `a` that is neither of the two legal peripheral addresses
`0b01111000` and `0b01111010`, `setAddress a` returns -1 and leaves the driver, and
so the stored address, exactly as it was. -/
theorem setAddress_rejects_illegal (a : Nat) (s : SSD1306)
    (h0 : a ≠ 0b01111000) (h1 : a ≠ 0b01111010) :
    setAddress a s = (-1, s) ∧ (setAddress a s).1 = -1 ∧
      (setAddress a s).2.mAddress = s.mAddress := by
  have h : a ≠ SSD1306Address0 ∧ a ≠ SSD1306Address1 := ⟨h0, h1⟩
  have e : setAddress a s = (-1, s) := by
    unfold setAddress
    rw [if_pos h]
  rw [e]
  exact ⟨rfl, rfl, rfl⟩

theorem setAddress_rejects_illegal_witness :
    setAddress 0x3C fresh = (-1, fresh) ∧ (setAddress 0x3C fresh).1 = -1 ∧
      (setAddress 0x3C fresh).2.mAddress = fresh.mAddress :=
  setAddress_rejects_illegal 0x3C fresh (by decide) (by decide)

/-- C14. For each of the two legal addresses `a`, `setAddress a` returns 0 and the
stored address afterwards is `a`; a `runCommand op` issued afterwards writes the
frame `0x00, op` with requested length 2, whichever legal address is stored. -/
theorem setAddress_accepts_legal (a : Nat) (s : SSD1306) (T : Transport) (op : Nat)
    (h : a = 0b01111000 ∨ a = 0b01111010) :
    (setAddress a s).1 = 0 ∧ (setAddress a s).2.mAddress = a ∧
      (runCommand T op (setAddress a s).2).2.bus = s.bus ++ [⟨[0x00, op], 2⟩] ∧
      (runCommand T op (setAddress a s).2).2.mAddress = a := by
  have hn : ¬ (a ≠ SSD1306Address0 ∧ a ≠ SSD1306Address1) := by
    rintro ⟨h0, h1⟩
    rcases h with h | h
    · exact h0 h
    · exact h1 h
  have e : setAddress a s = (0, { s with mAddress := a }) := by
    unfold setAddress
    rw [if_neg hn]
  rw [e, runCommand_snd]
  exact ⟨rfl, rfl, rfl, rfl⟩

theorem setAddress_accepts_legal_witness :
    (setAddress 0b01111010 fresh).1 = 0 ∧ (setAddress 0b01111010 fresh).2.mAddress = 0b01111010 ∧
      (runCommand (failAt 1 0) 0xAF (setAddress 0b01111010 fresh).2).2.bus =
        fresh.bus ++ [⟨[0x00, 0xAF], 2⟩] ∧
      (runCommand (failAt 1 0) 0xAF (setAddress 0b01111010 fresh).2).2.mAddress = 0b01111010 :=
  setAddress_accepts_legal 0b01111010 fresh (failAt 1 0) 0xAF (Or.inr rfl)

/-- C15. `setAddress` makes no bus write, whatever its argument: the log of writes
delivered to the transport is the same after the call as before it. -/
theorem setAddress_no_bus_activity (a : Nat) (s : SSD1306) :
    (setAddress a s).2.bus = s.bus ∧ (setAddress a s).2.bus.length = s.bus.length := by
  rw [setAddress_bus]
  exact ⟨rfl, rfl⟩

/-- C16. If the stored address is one of the two legal addresses, it still is after
`setAddress` with any argument and after any of `runCommand`, `setScroll`,
`writeImage`, `writeLine`, `writeByte`, `clearLine`, `clearDisplay` under any
transport; and each of these seven operations leaves the stored address equal to
its value before the call, so only `setAddress` can change it. -/
theorem address_invariant (C : Commands) (font : List Nat) (T : Transport) (s : SSD1306) :
    (∀ a : Nat, LegalAddress s.mAddress → LegalAddress (setAddress a s).2.mAddress) ∧
    (∀ (op : Op) (r : Int × SSD1306), exec C font T op s = some r →
      r.2.mAddress = s.mAddress ∧ (LegalAddress s.mAddress → LegalAddress r.2.mAddress)) := by
  refine ⟨?_, ?_⟩
  · intro a hs
    unfold setAddress
    split_ifs with h
    · exact hs
    · show LegalAddress a
      unfold LegalAddress
      by_cases h0 : a = SSD1306Address0
      · exact Or.inl h0
      · right
        by_contra h1
        exact h ⟨h0, h1⟩
  · intro op r h
    have e := exec_mAddress C font T op s r h
    exact ⟨e, fun hl => by rw [e]; exact hl⟩

theorem address_invariant_witness :
    LegalAddress (setAddress 0x3C fresh).2.mAddress ∧
    LegalAddress (setAddress 0b01111010 fresh).2.mAddress ∧
    ((clearDisplay sampleCommands (fullTransport 1025) fresh).2.mAddress = fresh.mAddress ∧
      (LegalAddress fresh.mAddress →
        LegalAddress (clearDisplay sampleCommands (fullTransport 1025) fresh).2.mAddress)) :=
  ⟨(address_invariant sampleCommands solidFont (fullTransport 1025) fresh).1 0x3C (Or.inl rfl),
   (address_invariant sampleCommands solidFont (fullTransport 1025) fresh).1 0b01111010
     (Or.inl rfl),
   (address_invariant sampleCommands solidFont (fullTransport 1025) fresh).2 Op.clearDisplay
     (clearDisplay sampleCommands (fullTransport 1025) fresh) rfl⟩

/-! ## Layout of the line payload -/

theorem linePayload_glyphs_length (font data : List Nat) :
    ((List.range 124).map
      (fun q => font.getD (data.getD (q / 5) 0 * 5 + q % 5) 0)).length = 124 := by
  rw [List.length_map, List.length_range]

theorem linePayload_length (font data : List Nat) : (linePayload font data).length = 129 := by
  unfold linePayload
  rw [List.length_cons, List.length_append, linePayload_glyphs_length]
  rfl

theorem linePayload_getElem?_zero (font data : List Nat) :
    (linePayload font data)[0]? = some 0x40 := rfl

theorem linePayload_getElem?_glyph (font data : List Nat) (i : Nat) (h1 : 1 ≤ i)
    (h2 : i ≤ 124) :
    (linePayload font data)[i]? =
      some (font.getD (data.getD ((i - 1) / 5) 0 * 5 + (i - 1) % 5) 0) := by
  obtain ⟨q, rfl⟩ : ∃ q, i = q + 1 := ⟨i - 1, by omega⟩
  unfold linePayload
  rw [List.getElem?_cons_succ,
    List.getElem?_append_left (by rw [linePayload_glyphs_length]; omega),
    List.getElem?_map, List.getElem?_range (by omega)]
  rfl

theorem linePayload_getElem?_tail (font data : List Nat) (i : Nat) (h1 : 125 ≤ i)
    (h2 : i ≤ 128) : (linePayload font data)[i]? = some 0 := by
  obtain ⟨q, rfl⟩ : ∃ q, i = q + 1 := ⟨i - 1, by omega⟩
  unfold linePayload
  rw [List.getElem?_cons_succ,
    List.getElem?_append_right (by rw [linePayload_glyphs_length]; omega),
    linePayload_glyphs_length]
  have h : q - 124 = 0 ∨ q - 124 = 1 ∨ q - 124 = 2 ∨ q - 124 = 3 := by omega
  rcases h with h | h | h | h <;> rw [h] <;> rfl

/-- C11. When the six addressing frames are accepted, `writeLine` hands the
transport, in one write that is the last of the operation, a payload of requested
length 129 held in an array of 129 bytes, whose byte 0 is `0x40` and whose bytes
at indices 126, 127 and 128 are zero, for every page, every text of 25 bytes and
every glyph table of 256 x 5 bytes. -/
theorem writeLine_payload_shape (C : Commands) (font : List Nat) (T : Transport) (page : Nat)
    (data : List Nat) (s : SSD1306) (hd : data.length = 25) (hf : font.length = 1280)
    (hb : ∀ c ∈ data, c < 256) (hT : ∀ i, i < 6 → T (s.bus.length + i) = 2) :
    ∃ p : List Nat,
      writeLine C font T page data s =
        some (if T (s.bus.length + 6) < 0 then -7 else 0,
          { s with bus := s.bus ++ window C 0 127 page page ++ [⟨p, 129⟩] }) ∧
      p.length = 129 ∧ (⟨p, 129⟩ : BusWrite).delivered = some p ∧
      p[0]? = some 0x40 ∧ p[126]? = some 0 ∧ p[127]? = some 0 ∧ p[128]? = some 0 :=
  ⟨linePayload font data, writeLine_run C font T page data s hd hf hb hT,
    linePayload_length font data,
    delivered_of_length _ _ (linePayload_length font data),
    linePayload_getElem?_zero font data,
    linePayload_getElem?_tail font data 126 (by omega) (by omega),
    linePayload_getElem?_tail font data 127 (by omega) (by omega),
    linePayload_getElem?_tail font data 128 (by omega) (by omega)⟩

theorem writeLine_payload_shape_witness :
    ∃ p : List Nat,
      writeLine sampleCommands solidFont (fullTransport 129) 3 textA fresh =
        some (if fullTransport 129 (fresh.bus.length + 6) < 0 then -7 else 0,
          { fresh with bus := fresh.bus ++ window sampleCommands 0 127 3 3 ++ [⟨p, 129⟩] }) ∧
      p.length = 129 ∧ (⟨p, 129⟩ : BusWrite).delivered = some p ∧
      p[0]? = some 0x40 ∧ p[126]? = some 0 ∧ p[127]? = some 0 ∧ p[128]? = some 0 :=
  writeLine_payload_shape sampleCommands solidFont (fullTransport 129) 3 textA fresh
    (by rw [textA, List.length_replicate]) (by rw [solidFont, List.length_replicate])
    (fun c hc => by rw [textA] at hc; rw [List.eq_of_mem_replicate hc]; omega)
    (fun i hi => by simp [fullTransport, fresh, hi])

/-- C12. When the six addressing frames are accepted, the seventh and last bus write
of `writeByte` has requested length 2 and its array is exactly `0x40, value`: the
value is sent as it is. -/
theorem writeByte_payload (C : Commands) (T : Transport) (line position value : Nat)
    (s : SSD1306) (hT : ∀ i, i < 6 → T (s.bus.length + i) = 2) :
    writeByte C T line position value s =
      (if T (s.bus.length + 6) < 0 then -7 else 0,
        { s with bus := s.bus ++ window C position position line line ++
          [⟨[0x40, value], 2⟩] }) ∧
    (writeByte C T line position value s).2.bus[s.bus.length + 6]? =
      some ⟨[0x40, value], 2⟩ ∧
    (writeByte C T line position value s).2.bus.length = s.bus.length + 7 ∧
    (⟨[0x40, value], 2⟩ : BusWrite).delivered = some [0x40, value] := by
  have h := writeByte_run C T line position value s hT
  rw [h]
  refine ⟨rfl, ?_, ?_, rfl⟩
  · show (s.bus ++ window C position position line line ++ [⟨[0x40, value], 2⟩])[
      s.bus.length + 6]? = _
    rw [List.getElem?_append_right (by simp [window])]
    simp [window]
  · simp [window]

theorem writeByte_payload_witness :
    writeByte sampleCommands (fullTransport 2) 3 5 0xA5 fresh =
      (0, { fresh with bus := window sampleCommands 5 5 3 3 ++ [⟨[0x40, 0xA5], 2⟩] }) :=
  (writeByte_payload sampleCommands (fullTransport 2) 3 5 0xA5 fresh
    (fun i hi => by simp [fullTransport, fresh, hi])).1

/-- C17. For an image of 1024 bytes `writeImage` returns a status, which is 0 exactly
when each of the six addressing frames reports 2 bytes and the payload write
reports a value that is not negative, -7 exactly when the six frames succeed and
the payload write reports a negative value, and `-k` for `k` from 1 to 6 exactly
when frame `k` is the first that does not report 2; so the status is one of
0, -1, ..., -7. -/
theorem writeImage_status (C : Commands) (T : Transport) (data : List Nat) (s : SSD1306)
    (hd : data.length = 1024) :
    ∃ r : Int × SSD1306, writeImage C T data s = some r ∧
      (r.1 = 0 ↔ (∀ i, i < 6 → T (s.bus.length + i) = 2) ∧ 0 ≤ T (s.bus.length + 6)) ∧
      (r.1 = -7 ↔ (∀ i, i < 6 → T (s.bus.length + i) = 2) ∧ T (s.bus.length + 6) < 0) ∧
      (∀ k : Nat, 1 ≤ k → k ≤ 6 →
        (r.1 = -(k : Int) ↔
          (∀ i, i + 1 < k → T (s.bus.length + i) = 2) ∧ T (s.bus.length + (k - 1)) ≠ 2)) ∧
      (r.1 = 0 ∨ ∃ k : Nat, 1 ≤ k ∧ k ≤ 7 ∧ r.1 = -(k : Int)) := by
  rcases frames_dichotomy T s.bus.length 6 with hok | ⟨j, hj, hok, hbad⟩
  · refine ⟨_, writeImage_run C T data s hd hok, ?_, ?_, ?_, ?_⟩
    · by_cases h : T (s.bus.length + 6) < 0
      · simp only [h, if_true]
        constructor
        · intro h7; omega
        · rintro ⟨_, h0⟩; omega
      · simp only [h, if_false]
        exact ⟨fun _ => ⟨hok, by omega⟩, fun _ => trivial⟩
    · by_cases h : T (s.bus.length + 6) < 0
      · simp only [h, if_true]
        exact ⟨fun _ => ⟨hok, trivial⟩, fun _ => trivial⟩
      · simp only [h, if_false]
        constructor
        · intro h7; omega
        · rintro ⟨_, h0⟩; exact h0.elim
    · intro k hk1 hk6
      constructor
      · intro hr
        exfalso
        by_cases h : T (s.bus.length + 6) < 0
        · simp only [h, if_true] at hr; omega
        · simp only [h, if_false] at hr; omega
      · rintro ⟨_, hb⟩
        exact absurd (hok (k - 1) (by omega)) hb
    · by_cases h : T (s.bus.length + 6) < 0
      · right
        exact ⟨7, by omega, by omega, by simp [h]⟩
      · left
        simp [h]
  · have hrun : writeImage C T data s =
        some (-((j + 1 : Nat) : Int),
          { s with bus := s.bus ++
            ([C.ssd1306ColumnAddress, 0, Ssd1306LcdWitdh - 1, C.ssd1306PageAddress, 0,
              SSD1306LcdPages - 1].take (j + 1)).map frame }) := by
      rw [writeImage_eq_dataOpFrom]
      exact dataOpFrom_abort T _ _ _ s j hj hok hbad
    refine ⟨_, hrun, ?_, ?_, ?_, ?_⟩
    · constructor
      · intro h0
        exfalso
        have : -((j + 1 : Nat) : Int) = 0 := h0
        omega
      · rintro ⟨hall, _⟩
        exact absurd (hall j hj) hbad
    · constructor
      · intro h7
        exfalso
        have : -((j + 1 : Nat) : Int) = -7 := h7
        omega
      · rintro ⟨hall, _⟩
        exact absurd (hall j hj) hbad
    · intro k hk1 hk6
      constructor
      · intro hr
        have hr2 : -((j + 1 : Nat) : Int) = -(k : Int) := hr
        have hk : k - 1 = j := by omega
        rw [hk]
        exact ⟨fun i hi => hok i (by omega), hbad⟩
      · rintro ⟨hok2, hbad2⟩
        have hk : k - 1 = j := by
          rcases Nat.lt_trichotomy (k - 1) j with h | h | h
          · exact absurd (hok (k - 1) h) hbad2
          · exact h
          · exact absurd (hok2 j (by omega)) hbad
        show -((j + 1 : Nat) : Int) = -(k : Int)
        omega
    · right
      exact ⟨j + 1, by omega, by omega, rfl⟩

theorem writeImage_status_witness :
    ∃ r : Int × SSD1306,
      writeImage sampleCommands (fullTransport (-1)) whiteImage fresh = some r ∧
      (r.1 = 0 ↔ (∀ i, i < 6 → fullTransport (-1) (fresh.bus.length + i) = 2) ∧
        0 ≤ fullTransport (-1) (fresh.bus.length + 6)) ∧
      (r.1 = -7 ↔ (∀ i, i < 6 → fullTransport (-1) (fresh.bus.length + i) = 2) ∧
        fullTransport (-1) (fresh.bus.length + 6) < 0) ∧
      (∀ k : Nat, 1 ≤ k → k ≤ 6 →
        (r.1 = -(k : Int) ↔
          (∀ i, i + 1 < k → fullTransport (-1) (fresh.bus.length + i) = 2) ∧
            fullTransport (-1) (fresh.bus.length + (k - 1)) ≠ 2)) ∧
      (r.1 = 0 ∨ ∃ k : Nat, 1 ≤ k ∧ k ≤ 7 ∧ r.1 = -(k : Int)) :=
  writeImage_status sampleCommands (fullTransport (-1)) whiteImage fresh
    (by rw [whiteImage, List.length_replicate])

/-- C18. Two calls of `clearDisplay` in succession, against a transport that accepts
every write in full, both return 0 and each appends the same seven bus writes: the
six frames of the full window and the payload `0x40` followed by 1024 zero bytes. -/
theorem clearDisplay_twice (C : Commands) (T : Transport) (s : SSD1306)
    (hT : ∀ i, i < 14 → i ≠ 6 → i ≠ 13 → T (s.bus.length + i) = 2)
    (h6 : T (s.bus.length + 6) = 1025) (h13 : T (s.bus.length + 13) = 1025) :
    (clearDisplay C T s).1 = 0 ∧
    (clearDisplay C T (clearDisplay C T s).2).1 = 0 ∧
    (clearDisplay C T s).2.bus =
      s.bus ++ (window C 0 127 0 7 ++ [⟨0x40 :: List.replicate 1024 0, 1025⟩]) ∧
    (clearDisplay C T (clearDisplay C T s).2).2.bus =
      (clearDisplay C T s).2.bus ++
        (window C 0 127 0 7 ++ [⟨0x40 :: List.replicate 1024 0, 1025⟩]) ∧
    (window C 0 127 0 7 ++ [(⟨0x40 :: List.replicate 1024 0, 1025⟩ : BusWrite)]).length = 7 := by
  have h1 := clearDisplay_run C T s (fun i hi => hT i (by omega) (by omega) (by omega))
  have hlen : (clearDisplay C T s).2.bus.length = s.bus.length + 7 := by
    rw [h1]; simp [window]
  have h2 := clearDisplay_run C T (clearDisplay C T s).2 (fun i hi => by
    rw [hlen, Nat.add_assoc]
    exact hT (7 + i) (by omega) (by omega) (by omega))
  have e6 : ¬ T (s.bus.length + 6) < 0 := by rw [h6]; omega
  have e13 : ¬ T ((clearDisplay C T s).2.bus.length + 6) < 0 := by
    rw [hlen, Nat.add_assoc, h13]; omega
  refine ⟨?_, ?_, ?_, ?_, rfl⟩
  · rw [h1]; simp [e6]
  · rw [h2]; simp [e13]
  · rw [h1, List.append_assoc]; rfl
  · rw [h2, List.append_assoc]; rfl

theorem clearDisplay_twice_witness :
    (clearDisplay sampleCommands (fun k => if k % 7 = 6 then 1025 else 2) fresh).1 = 0 ∧
    (clearDisplay sampleCommands (fun k => if k % 7 = 6 then 1025 else 2)
      (clearDisplay sampleCommands (fun k => if k % 7 = 6 then 1025 else 2) fresh).2).1 = 0 :=
  ⟨(clearDisplay_twice sampleCommands (fun k => if k % 7 = 6 then 1025 else 2) fresh
      (fun i hi h6 h13 => by
        have h : ¬ ((fresh.bus.length + i) % 7 = 6) := by
          show ¬ ((0 + i) % 7 = 6)
          omega
        simp [h])
      (by decide) (by decide)).1,
   (clearDisplay_twice sampleCommands (fun k => if k % 7 = 6 then 1025 else 2) fresh
      (fun i hi h6 h13 => by
        have h : ¬ ((fresh.bus.length + i) % 7 = 6) := by
          show ¬ ((0 + i) % 7 = 6)
          omega
        simp [h])
      (by decide) (by decide)).2.1⟩

/-- The line payload depends on the text and the glyph table only through the 124
glyph bytes it holds. -/
theorem linePayload_congr (font data data2 : List Nat)
    (h : ∀ q, q < 124 →
      font.getD (data2.getD (q / 5) 0 * 5 + q % 5) 0 =
        font.getD (data.getD (q / 5) 0 * 5 + q % 5) 0) :
    linePayload font data2 = linePayload font data := by
  unfold linePayload
  congr 2
  apply List.map_congr_left
  intro q hq
  exact h q (List.mem_range.mp hq)

/-- C19. For every page, every text of 25 bytes and every glyph table of 1280 bytes,
the payload built by `writeLine` has 129 bytes: byte 0 is `0x40`, byte `i` for `i`
from 1 to 124 is `font[text[(i-1)/5] * 5 + (i-1) % 5]`, and bytes 125 to 128 are
zero.  The payload is the same for every page, and two texts that agree on their
first 24 characters and whose 25th characters have glyphs with the same first four
bytes give the same payload. -/
theorem writeLine_exact_layout (C : Commands) (font : List Nat) (T : Transport)
    (data : List Nat) (s : SSD1306) (hd : data.length = 25) (hf : font.length = 1280)
    (hb : ∀ c ∈ data, c < 256) (hT : ∀ i, i < 6 → T (s.bus.length + i) = 2) :
    ∃ p : List Nat,
      writeLineLoop font data 1 0 0 ((memset0 (Ssd1306LcdWitdh + 1)).set 0 0x40) = some p ∧
      (∀ page : Nat, writeLine C font T page data s =
        some (if T (s.bus.length + 6) < 0 then -7 else 0,
          { s with bus := s.bus ++ window C 0 127 page page ++ [⟨p, 129⟩] })) ∧
      p.length = 129 ∧ p[0]? = some 0x40 ∧
      (∀ i, 1 ≤ i → i ≤ 124 →
        ∃ c g, data[(i - 1) / 5]? = some c ∧ font[c * 5 + (i - 1) % 5]? = some g ∧
          p[i]? = some g) ∧
      (∀ i, 125 ≤ i → i ≤ 128 → p[i]? = some 0) ∧
      (∀ data2 : List Nat, data2.length = 25 → (∀ c ∈ data2, c < 256) →
        (∀ k, k < 24 → data2[k]? = data[k]?) →
        (∀ j, j < 4 → font.getD (data2.getD 24 0 * 5 + j) 0 =
          font.getD (data.getD 24 0 * 5 + j) 0) →
        writeLineLoop font data2 1 0 0 ((memset0 (Ssd1306LcdWitdh + 1)).set 0 0x40) =
          some p) := by
  refine ⟨linePayload font data, writeLine_payload font data hd hf hb,
    fun page => writeLine_run C font T page data s hd hf hb hT,
    linePayload_length font data, linePayload_getElem?_zero font data, ?_,
    fun i h1 h2 => linePayload_getElem?_tail font data i h1 h2, ?_⟩
  · intro i h1 h2
    have hq : (i - 1) / 5 < data.length := by omega
    have hc : data[(i - 1) / 5] < 256 := hb _ (List.getElem_mem hq)
    have hg : data[(i - 1) / 5] * 5 + (i - 1) % 5 < font.length := by omega
    refine ⟨data[(i - 1) / 5], font[data[(i - 1) / 5] * 5 + (i - 1) % 5],
      List.getElem?_eq_getElem hq, List.getElem?_eq_getElem hg, ?_⟩
    rw [linePayload_getElem?_glyph font data i h1 h2, List.getD_eq_getElem _ _ hq,
      List.getD_eq_getElem _ _ hg]
  · intro data2 hd2 hb2 hsame hglyph
    rw [writeLine_payload font data2 hd2 hf hb2]
    congr 1
    apply linePayload_congr
    intro q hq
    by_cases h24 : q / 5 < 24
    · have e : data2.getD (q / 5) 0 = data.getD (q / 5) 0 := by
        rw [List.getD_eq_getElem?_getD, List.getD_eq_getElem?_getD, hsame _ h24]
      rw [e]
    · have e : q / 5 = 24 := by omega
      rw [e]
      exact hglyph (q % 5) (by omega)

theorem writeLine_exact_layout_witness :
    ∃ p : List Nat,
      writeLineLoop solidFont textA 1 0 0 ((memset0 (Ssd1306LcdWitdh + 1)).set 0 0x40) =
        some p ∧
      (∀ page : Nat, writeLine sampleCommands solidFont (fullTransport 129) page textA fresh =
        some (if fullTransport 129 (fresh.bus.length + 6) < 0 then -7 else 0,
          { fresh with bus :=
            fresh.bus ++ window sampleCommands 0 127 page page ++ [⟨p, 129⟩] })) ∧
      p.length = 129 ∧ p[0]? = some 0x40 ∧
      (∀ i, 1 ≤ i → i ≤ 124 →
        ∃ c g, textA[(i - 1) / 5]? = some c ∧ solidFont[c * 5 + (i - 1) % 5]? = some g ∧
          p[i]? = some g) ∧
      (∀ i, 125 ≤ i → i ≤ 128 → p[i]? = some 0) ∧
      (∀ data2 : List Nat, data2.length = 25 → (∀ c ∈ data2, c < 256) →
        (∀ k, k < 24 → data2[k]? = textA[k]?) →
        (∀ j, j < 4 → solidFont.getD (data2.getD 24 0 * 5 + j) 0 =
          solidFont.getD (textA.getD 24 0 * 5 + j) 0) →
        writeLineLoop solidFont data2 1 0 0 ((memset0 (Ssd1306LcdWitdh + 1)).set 0 0x40) =
          some p) :=
  writeLine_exact_layout sampleCommands solidFont (fullTransport 129) textA fresh
    (by rw [textA, List.length_replicate]) (by rw [solidFont, List.length_replicate])
    (fun c hc => by rw [textA] at hc; rw [List.eq_of_mem_replicate hc]; omega)
    (fun i hi => by simp [fullTransport, fresh, hi])

/-! ## Lookups of the packing loop -/

theorem writeLineLookups_tail (font data : List Nat) (m : Nat) :
    ∀ (i offset f : Nat) (buffer : List Nat), m = 127 - i → 125 ≤ i →
      writeLineLookups font data i offset f buffer = [] := by
  induction m with
  | zero =>
    intro i offset f buffer hm hi
    rw [writeLineLookups]
    have : ¬ i < 127 := by omega
    simp [this]
  | succ m ih =>
    intro i offset f buffer hm hi
    rw [writeLineLookups]
    have h1 : i < 127 := by omega
    have h2 : ¬ i < 125 := by omega
    simp only [h1, h2, if_true, if_false]
    exact ih (i + 1) _ _ buffer (by omega) (by omega)

/-- The lookups made from pass `i` on: pass `q + 1` reads the text at `q / 5`, uses
column `q % 5` and stores at `q + 1`. -/
theorem writeLineLookups_spec (font data : List Nat) (hd : data.length = 25)
    (hf : font.length = 1280) (hb : ∀ c ∈ data, c < 256) (m : Nat) :
    ∀ (i offset f : Nat) (buffer : List Nat), m = 125 - i → 1 ≤ i → i ≤ 125 →
      buffer.length = 129 → offset * 5 + f = i - 1 → f ≤ 5 →
      writeLineLookups font data i offset f buffer =
        (List.range' (i - 1) (125 - i)).map (fun q => (q / 5, q % 5, q + 1)) := by
  induction m with
  | zero =>
    intro i offset f buffer hm hi hi2 hbuf _ _
    rw [writeLineLookups_tail font data _ i offset f buffer rfl (by omega), ← hm]
    rfl
  | succ m ih =>
    intro i offset f buffer hm hi hi2 hbuf hinv hf5
    have h1 : i < 127 := by omega
    have h2 : i < 125 := by omega
    have e1 : (if f = 5 then offset + 1 else offset) = (i - 1) / 5 := by split_ifs <;> omega
    have e2 : (if f = 5 then 0 else f) = (i - 1) % 5 := by split_ifs <;> omega
    have hq : (i - 1) / 5 < data.length := by omega
    have hc : data[(i - 1) / 5] < 256 := hb _ (List.getElem_mem hq)
    have hg : data[(i - 1) / 5] * 5 + (i - 1) % 5 < font.length := by omega
    have hbi : i < buffer.length := by omega
    have hrec := ih (i + 1) ((i - 1) / 5) ((i - 1) % 5 + 1)
      (buffer.set i (font[data[(i - 1) / 5] * 5 + (i - 1) % 5])) (by omega) (by omega) (by omega)
      (by simpa using hbuf) (by omega) (by omega)
    rw [writeLineLookups]
    simp only [e1, e2, h1, h2, if_true, List.getElem?_eq_getElem hq,
      List.getElem?_eq_getElem hg, hbi]
    rw [hrec, ← hm, List.range'_succ, List.map_cons]
    have e3 : i - 1 + 1 = i := by omega
    have e4 : i + 1 - 1 = i := by omega
    have e5 : 125 - (i + 1) = m := by omega
    rw [e3, e4, e5]

/-- A data-bearing operation whose payload array could be built returns a status. -/
theorem dataOpFrom_some_ne_none (T : Transport) (buffer : List Nat) (count : Nat)
    (cs : List Nat) (s : SSD1306) : dataOpFrom T (some buffer) count cs 0 s ≠ none := by
  rcases frames_dichotomy T s.bus.length cs.length with hok | ⟨j, hj, hok, hbad⟩
  · rw [dataOpFrom_accept T buffer count cs s hok]; exact Option.some_ne_none _
  · rw [dataOpFrom_abort T (some buffer) count cs s j hj hok hbad]; exact Option.some_ne_none _

/-- C20. For every page and every text of 25 bytes, with a glyph table of 256 x 5
bytes: the packing loop of `writeLine` makes 124 lookups, pass `q + 1` reading the
text at offset `q / 5`, the glyph table at `text[offset] * 5 + f` with `f = q % 5`,
and storing at payload index `q + 1`; every text offset is at most 24, every `f` at
most 4, every glyph index at most 1279 and every store index between 1 and 128.
No lookup leaves its array: the loop yields a payload and `writeLine` a status. -/
theorem writeLine_lookups_in_bounds (C : Commands) (font : List Nat) (T : Transport)
    (page : Nat) (data : List Nat) (s : SSD1306) (hd : data.length = 25)
    (hf : font.length = 1280) (hb : ∀ c ∈ data, c < 256) :
    writeLineLookups font data 1 0 0 ((memset0 (Ssd1306LcdWitdh + 1)).set 0 0x40) =
      (List.range 124).map (fun q => (q / 5, q % 5, q + 1)) ∧
    (∀ e ∈ writeLineLookups font data 1 0 0 ((memset0 (Ssd1306LcdWitdh + 1)).set 0 0x40),
      e.1 ≤ 24 ∧ e.2.1 ≤ 4 ∧ 1 ≤ e.2.2 ∧ e.2.2 ≤ 128 ∧
      ∃ c, data[e.1]? = some c ∧ c * 5 + e.2.1 ≤ 1279 ∧
        (font[c * 5 + e.2.1]?).isSome = true) ∧
    (writeLineLoop font data 1 0 0 ((memset0 (Ssd1306LcdWitdh + 1)).set 0 0x40)).isSome
      = true ∧
    (writeLine C font T page data s).isSome = true := by
  have hlog : writeLineLookups font data 1 0 0 ((memset0 (Ssd1306LcdWitdh + 1)).set 0 0x40) =
      (List.range 124).map (fun q => (q / 5, q % 5, q + 1)) := by
    rw [writeLineLookups_spec font data hd hf hb 124 1 0 0 _ (by omega) (by omega) (by omega)
      (by rw [List.length_set, memset0, List.length_replicate]; rfl) (by omega) (by omega),
      List.range_eq_range']
  refine ⟨hlog, ?_, ?_, ?_⟩
  · intro e he
    rw [hlog, List.mem_map] at he
    obtain ⟨q, hq, rfl⟩ := he
    have hq2 : q < 124 := List.mem_range.mp hq
    have hq3 : q / 5 < data.length := by omega
    have hc : data[q / 5] < 256 := hb _ (List.getElem_mem hq3)
    have hg : data[q / 5] * 5 + q % 5 < font.length := by omega
    refine ⟨by show q / 5 ≤ 24; omega, by show q % 5 ≤ 4; omega, by show 1 ≤ q + 1; omega,
      by show q + 1 ≤ 128; omega, data[q / 5], List.getElem?_eq_getElem hq3, ?_, ?_⟩
    · show data[q / 5] * 5 + q % 5 ≤ 1279
      omega
    · show (font[data[q / 5] * 5 + q % 5]?).isSome = true
      rw [List.getElem?_eq_getElem hg]
      rfl
  · rw [writeLine_payload font data hd hf hb]
    rfl
  · rw [writeLine_eq_dataOpFrom, writeLine_payload font data hd hf hb, Option.isSome_iff_ne_none]
    exact dataOpFrom_some_ne_none T _ _ _ s

theorem writeLine_lookups_in_bounds_witness :
    writeLineLookups solidFont textA 1 0 0 ((memset0 (Ssd1306LcdWitdh + 1)).set 0 0x40) =
      (List.range 124).map (fun q => (q / 5, q % 5, q + 1)) ∧
    (writeLine sampleCommands solidFont (failAt 6 (-1)) 7 textA fresh).isSome = true :=
  ⟨(writeLine_lookups_in_bounds sampleCommands solidFont (failAt 6 (-1)) 7 textA fresh
      (by rw [textA, List.length_replicate]) (by rw [solidFont, List.length_replicate])
      (fun c hc => by rw [textA] at hc; rw [List.eq_of_mem_replicate hc]; omega)).1,
   (writeLine_lookups_in_bounds sampleCommands solidFont (failAt 6 (-1)) 7 textA fresh
      (by rw [textA, List.length_replicate]) (by rw [solidFont, List.length_replicate])
      (fun c hc => by rw [textA] at hc; rw [List.eq_of_mem_replicate hc]; omega)).2.2.2⟩

end Ssd1306
